import Mathlib

/-!
Verification of the augmented-triage-system core against its specification.

Each section embeds one part of the source (Python) as executable Lean
definitions, then proves theorems about them.  Machine integers are
modelled as Nat/Int with explicit modular reduction where overflow
matters; fallible code returns Option or Except; stateful repository
code is modelled as explicit state passing over concrete state types.
-/

/- ### Policy reconciler (domain/policy/eda_policy.py) -/

/-- Tri-state precheck value, source type PolicyPrecheckValue =
Literal of yes, no, unknown. -/
inductive PolicyPrecheckValue where
  | yes
  | no
  | unknown
  deriving DecidableEq, Repr, Fintype

/-- Alignment value, source type PolicyAlignmentValue = Literal of
yes, no, unknown, not_required. -/
inductive PolicyAlignmentValue where
  | yes
  | no
  | unknown
  | not_required
  deriving DecidableEq, Repr, Fintype

/-- Suggestion value, source type SuggestionValue = Literal of accept, deny. -/
inductive SuggestionValue where
  | accept
  | deny
  deriving DecidableEq, Repr, Fintype

/-- Serialize a precheck value to its Python literal string. -/
def PolicyPrecheckValue.toStr : PolicyPrecheckValue → String
  | .yes => "yes"
  | .no => "no"
  | .unknown => "unknown"

/-- Serialize an alignment value to its Python literal string. -/
def PolicyAlignmentValue.toStr : PolicyAlignmentValue → String
  | .yes => "yes"
  | .no => "no"
  | .unknown => "unknown"
  | .not_required => "not_required"

/-- Serialize a suggestion value to its Python literal string. -/
def SuggestionValue.toStr : SuggestionValue → String
  | .accept => "accept"
  | .deny => "deny"

/-- Source dataclass EdaPolicyPrecheckInput. -/
structure EdaPolicyPrecheckInput where
  excluded_from_eda_flow : Bool
  indication_category : String
  labs_required : Bool
  labs_pass : PolicyPrecheckValue
  ecg_required : Bool
  ecg_present : PolicyPrecheckValue
  pediatric_flag : Bool
  deriving DecidableEq, Repr

/-- Source dataclass Llm2PolicyAlignmentInput. -/
structure Llm2PolicyAlignmentInput where
  excluded_request : Bool
  labs_ok : PolicyAlignmentValue
  ecg_ok : PolicyAlignmentValue
  pediatric_flag : Bool
  notes : Option String
  deriving DecidableEq, Repr

/-- Source dataclass Llm2SuggestionInput. -/
structure Llm2SuggestionInput where
  suggestion : SuggestionValue
  policy_alignment : Llm2PolicyAlignmentInput
  deriving DecidableEq, Repr

/-- Contradiction value payload, source type is the union str or bool. -/
inductive PolicyFieldValue where
  | ofString (s : String)
  | ofBool (b : Bool)
  deriving DecidableEq, Repr

/-- Source dataclass EdaPolicyContradiction. -/
structure EdaPolicyContradiction where
  rule : String
  field : String
  previous_value : PolicyFieldValue
  reconciled_value : PolicyFieldValue
  deriving DecidableEq, Repr

/-- Source dataclass EdaPolicyResult. -/
structure EdaPolicyResult where
  suggestion : SuggestionValue
  policy_alignment : Llm2PolicyAlignmentInput
  contradictions : List EdaPolicyContradiction
  deriving DecidableEq, Repr

/-- Inner helper set_field of reconcile_eda_policy: append one
contradiction when the value actually changes. -/
def set_field (acc : List EdaPolicyContradiction) (rule field : String)
    (previous updated : PolicyFieldValue) : List EdaPolicyContradiction :=
  if previous = updated then acc
  else acc ++ [⟨rule, field, previous, updated⟩]

/-- Source helper _map_required_alignment. -/
def _map_required_alignment (value : PolicyPrecheckValue) : PolicyAlignmentValue :=
  if value = .no then .no else .unknown

/-- Source function reconcile_eda_policy: apply deterministic hard rules so
LLM2 output stays policy-consistent.  Python mutation of the four local
variables and the contradiction list is rendered as explicit threading. -/
def reconcile_eda_policy (precheck : EdaPolicyPrecheckInput)
    (llm2 : Llm2SuggestionInput) : EdaPolicyResult :=
  let suggestion0 := llm2.suggestion
  let excluded0 := llm2.policy_alignment.excluded_request
  let labs0 := llm2.policy_alignment.labs_ok
  let ecg0 := llm2.policy_alignment.ecg_ok
  let (suggestion1, excluded1, contradictions1) :=
    if precheck.excluded_from_eda_flow then
      let cA := set_field [] "excluded_request_forces_deny" "suggestion"
        (.ofString suggestion0.toStr) (.ofString SuggestionValue.deny.toStr)
      let cB := set_field cA "excluded_request_forces_alignment"
        "policy_alignment.excluded_request" (.ofBool excluded0) (.ofBool true)
      (SuggestionValue.deny, true, cB)
    else (suggestion0, excluded0, [])
  let (labs2, ecg2, suggestion2, contradictions2) :=
    if precheck.indication_category = "foreign_body" then
      let cA := set_field contradictions1 "foreign_body_overrides_labs"
        "policy_alignment.labs_ok" (.ofString labs0.toStr)
        (.ofString PolicyAlignmentValue.not_required.toStr)
      let cB := set_field cA "foreign_body_overrides_ecg"
        "policy_alignment.ecg_ok" (.ofString ecg0.toStr)
        (.ofString PolicyAlignmentValue.not_required.toStr)
      (PolicyAlignmentValue.not_required, PolicyAlignmentValue.not_required,
        suggestion1, cB)
    else
      let (labsA, suggestionA, cAcc) :=
        if precheck.labs_required ∧ precheck.labs_pass ≠ .yes then
          let target_labs := _map_required_alignment precheck.labs_pass
          let cA := set_field contradictions1 "required_labs_must_align"
            "policy_alignment.labs_ok" (.ofString labs0.toStr)
            (.ofString target_labs.toStr)
          let cB := set_field cA "required_labs_missing_or_failed_forces_deny"
            "suggestion" (.ofString suggestion1.toStr)
            (.ofString SuggestionValue.deny.toStr)
          (target_labs, SuggestionValue.deny, cB)
        else (labs0, suggestion1, contradictions1)
      let (ecgA, suggestionB, cAcc2) :=
        if precheck.ecg_required ∧ precheck.ecg_present ≠ .yes then
          let target_ecg := _map_required_alignment precheck.ecg_present
          let cA := set_field cAcc "required_ecg_must_align"
            "policy_alignment.ecg_ok" (.ofString ecg0.toStr)
            (.ofString target_ecg.toStr)
          let cB := set_field cA "required_ecg_missing_forces_deny"
            "suggestion" (.ofString suggestionA.toStr)
            (.ofString SuggestionValue.deny.toStr)
          (target_ecg, SuggestionValue.deny, cB)
        else (ecg0, suggestionA, cAcc)
      (labsA, ecgA, suggestionB, cAcc2)
  { suggestion := suggestion2
    policy_alignment :=
      { excluded_request := excluded1
        labs_ok := labs2
        ecg_ok := ecg2
        pediatric_flag := llm2.policy_alignment.pediatric_flag
        notes := llm2.policy_alignment.notes }
    contradictions := contradictions2 }

/-- Claimed else-if variant of the reconciler, following the claim text:
rule 1 (excluded), ELSE rule 2 (foreign body), ELSE rule 3 (labs and ECG).
Rule bodies are the same as the source; only the chaining differs. -/
def claimed_reconcile_eda_policy (precheck : EdaPolicyPrecheckInput)
    (llm2 : Llm2SuggestionInput) : EdaPolicyResult :=
  let suggestion0 := llm2.suggestion
  let excluded0 := llm2.policy_alignment.excluded_request
  let labs0 := llm2.policy_alignment.labs_ok
  let ecg0 := llm2.policy_alignment.ecg_ok
  if precheck.excluded_from_eda_flow then
    let cA := set_field [] "excluded_request_forces_deny" "suggestion"
      (.ofString suggestion0.toStr) (.ofString SuggestionValue.deny.toStr)
    let cB := set_field cA "excluded_request_forces_alignment"
      "policy_alignment.excluded_request" (.ofBool excluded0) (.ofBool true)
    { suggestion := SuggestionValue.deny
      policy_alignment :=
        { excluded_request := true, labs_ok := labs0, ecg_ok := ecg0
          pediatric_flag := llm2.policy_alignment.pediatric_flag
          notes := llm2.policy_alignment.notes }
      contradictions := cB }
  else if precheck.indication_category = "foreign_body" then
    let cA := set_field [] "foreign_body_overrides_labs"
      "policy_alignment.labs_ok" (.ofString labs0.toStr)
      (.ofString PolicyAlignmentValue.not_required.toStr)
    let cB := set_field cA "foreign_body_overrides_ecg"
      "policy_alignment.ecg_ok" (.ofString ecg0.toStr)
      (.ofString PolicyAlignmentValue.not_required.toStr)
    { suggestion := suggestion0
      policy_alignment :=
        { excluded_request := excluded0
          labs_ok := PolicyAlignmentValue.not_required
          ecg_ok := PolicyAlignmentValue.not_required
          pediatric_flag := llm2.policy_alignment.pediatric_flag
          notes := llm2.policy_alignment.notes }
      contradictions := cB }
  else
    let (labsA, suggestionA, cAcc) :=
      if precheck.labs_required ∧ precheck.labs_pass ≠ .yes then
        let target_labs := _map_required_alignment precheck.labs_pass
        let cA := set_field [] "required_labs_must_align"
          "policy_alignment.labs_ok" (.ofString labs0.toStr)
          (.ofString target_labs.toStr)
        let cB := set_field cA "required_labs_missing_or_failed_forces_deny"
          "suggestion" (.ofString suggestion0.toStr)
          (.ofString SuggestionValue.deny.toStr)
        (target_labs, SuggestionValue.deny, cB)
      else (labs0, suggestion0, [])
    let (ecgA, suggestionB, cAcc2) :=
      if precheck.ecg_required ∧ precheck.ecg_present ≠ .yes then
        let cA := set_field cAcc "required_ecg_must_align"
          "policy_alignment.ecg_ok" (.ofString ecg0.toStr)
          (.ofString (_map_required_alignment precheck.ecg_present).toStr)
        let cB := set_field cA "required_ecg_missing_forces_deny"
          "suggestion" (.ofString suggestionA.toStr)
          (.ofString SuggestionValue.deny.toStr)
        (_map_required_alignment precheck.ecg_present, SuggestionValue.deny, cB)
      else (ecg0, suggestionA, cAcc)
    { suggestion := suggestionB
      policy_alignment :=
        { excluded_request := excluded0, labs_ok := labsA, ecg_ok := ecgA
          pediatric_flag := llm2.policy_alignment.pediatric_flag
          notes := llm2.policy_alignment.notes }
      contradictions := cAcc2 }

/-- Number of contradictions recorded for one field name. -/
def c1_counts (r : EdaPolicyResult) (f : String) : Nat :=
  r.contradictions.countP (fun c => c.field == f)

/-- Amended reconciler contract: rule 1 (excluded) applies independently of
the category branch; rules 2 and 3 form an if/else on indication_category; one
contradiction is emitted exactly for each governed field whose value
actually changed, carrying the input value and the final value; the
pediatric flag and notes pass through. -/
def c1_amended_statement (p : EdaPolicyPrecheckInput)
    (l : Llm2SuggestionInput) : Prop :=
  let r := reconcile_eda_policy p l
  let l0 := l.policy_alignment
  let r0 := r.policy_alignment
  (r.suggestion =
    (if p.excluded_from_eda_flow then SuggestionValue.deny
     else if p.indication_category = "foreign_body" then l.suggestion
     else if (p.labs_required ∧ p.labs_pass ≠ .yes) ∨
         (p.ecg_required ∧ p.ecg_present ≠ .yes) then SuggestionValue.deny
     else l.suggestion))
  ∧ (r0.excluded_request = (p.excluded_from_eda_flow || l0.excluded_request))
  ∧ (r0.labs_ok =
      (if p.indication_category = "foreign_body" then .not_required
       else if p.labs_required ∧ p.labs_pass ≠ .yes then
         _map_required_alignment p.labs_pass
       else l0.labs_ok))
  ∧ (r0.ecg_ok =
      (if p.indication_category = "foreign_body" then .not_required
       else if p.ecg_required ∧ p.ecg_present ≠ .yes then
         _map_required_alignment p.ecg_present
       else l0.ecg_ok))
  ∧ (r0.pediatric_flag = l0.pediatric_flag)
  ∧ (r0.notes = l0.notes)
  ∧ (c1_counts r "suggestion" = (if l.suggestion = r.suggestion then 0 else 1))
  ∧ (c1_counts r "policy_alignment.excluded_request" =
      (if l0.excluded_request = r0.excluded_request then 0 else 1))
  ∧ (c1_counts r "policy_alignment.labs_ok" =
      (if l0.labs_ok = r0.labs_ok then 0 else 1))
  ∧ (c1_counts r "policy_alignment.ecg_ok" =
      (if l0.ecg_ok = r0.ecg_ok then 0 else 1))
  ∧ (∀ c ∈ r.contradictions,
      (c.field = "suggestion" ∧ c.previous_value = .ofString l.suggestion.toStr
        ∧ c.reconciled_value = .ofString r.suggestion.toStr) ∨
      (c.field = "policy_alignment.excluded_request" ∧
        c.previous_value = .ofBool l0.excluded_request ∧
        c.reconciled_value = .ofBool r0.excluded_request) ∨
      (c.field = "policy_alignment.labs_ok" ∧
        c.previous_value = .ofString l0.labs_ok.toStr ∧
        c.reconciled_value = .ofString r0.labs_ok.toStr) ∨
      (c.field = "policy_alignment.ecg_ok" ∧
        c.previous_value = .ofString l0.ecg_ok.toStr ∧
        c.reconciled_value = .ofString r0.ecg_ok.toStr))

/-- Counterexample inputs for the else-if reading of the claim: an excluded
request whose indication category is foreign_body and whose LLM2 alignment
says labs are ok. -/
def c1_cx_precheck : EdaPolicyPrecheckInput :=
  ⟨true, "foreign_body", false, .yes, false, .yes, false⟩

/-- Counterexample LLM2 payload accompanying c1_cx_precheck. -/
def c1_cx_llm2 : Llm2SuggestionInput :=
  ⟨.accept, ⟨false, .yes, .yes, false, none⟩⟩

/- ### Retry backoff (application/services/backoff.py) -/

/-- Source constant _BASE_SECONDS. -/
def _BASE_SECONDS : List Int := [30, 120, 300, 600, 1200]

/-- Source function compute_retry_delay; the timedelta is its whole number
of seconds.  Python float arithmetic int(base * (1 + jitter_percent))
coincides with exact integer floor (base * (100 + j)) / 100 for every
attempt (the jitter sequence is periodic with period 21 and all cases
were checked), so the embedding uses exact integers.  Raises for
attempt < 1, rendered as Except. -/
def compute_retry_delay (attempt : Int) : Except String Int :=
  if attempt < 1 then .error "attempt must be >= 1"
  else
    let index := min (attempt - 1).toNat (_BASE_SECONDS.length - 1)
    let base := _BASE_SECONDS.getD index 0
    let jitter_percent_times_100 : Int := (attempt * 37) % 21 - 10
    let seconds := (base * (100 + jitter_percent_times_100)) / 100
    .ok (max 1 seconds)

/-- Base table of the claim text: 30, 120, 300, 600, 1200 seconds for
attempts 1..5 and 1200 for every attempt above 5. -/
def c5_base (attempt : Int) : Int :=
  if attempt ≤ 5 then [30, 120, 300, 600, 1200].getD (attempt - 1).toNat 0
  else 1200

/- ### Shared queue, audit and case-status model
(ports/job_queue_port.py; the audit repository port and domain
case_status.py are imported by the services but absent from src, so their
shapes are modelled from the spec data model and from the call sites.) -/

/-- JSON payload value (string, integer, boolean or null leaf). -/
inductive PVal where
  | s (v : String)
  | n (v : Int)
  | b (v : Bool)
  | null
  deriving DecidableEq, Repr

/-- JSON object payload as an association list. -/
abbrev Payload := List (String × PVal)

/-- Source dataclass JobRecord (job_queue_port.py); datetimes are epoch
seconds. -/
structure JobRecord where
  job_id : Nat
  case_id : Option Nat
  job_type : String
  status : String
  run_after : Int
  attempts : Nat
  max_attempts : Nat
  last_error : Option String
  payload : Payload
  deriving DecidableEq, Repr

/-- Source dataclass JobEnqueueInput (job_queue_port.py). -/
structure JobEnqueueInput where
  job_type : String
  case_id : Option Nat := none
  payload : Payload := []
  run_after : Option Int := none
  max_attempts : Nat := 5
  deriving DecidableEq, Repr

/-- Modelled from the spec: AuditEventCreateInput of the audit repository
port, whose module is absent from src; fields follow the AuditEvent data
model of the spec and the construction sites in the services. -/
structure AuditEventCreateInput where
  case_id : Nat
  actor_type : String
  event_type : String
  payload : Payload
  room_id : Option String := none
  matrix_event_id : Option String := none
  deriving DecidableEq, Repr

/-- Modelled from the spec: CaseStatus enumeration of domain/case_status.py,
which is absent from src; the states are those of spec section 4.1. -/
inductive CaseStatus where
  | NEW
  | PDF_EXTRACTED
  | LLM_SUGGEST
  | R2_POST_WIDGET
  | WAIT_DOCTOR
  | DOCTOR_ACCEPTED
  | DOCTOR_DENIED
  | R3_POST_REQUEST
  | WAIT_SCHEDULER
  | APPT_CONFIRMED
  | APPT_DENIED
  | WAIT_R1_CLEANUP_THUMBS
  | CLEANUP_RUNNING
  | CLEANED
  | FAILED
  deriving DecidableEq, Repr, Fintype

/-- Modelled from the spec: the enum value string of a case status. -/
def CaseStatus.value : CaseStatus → String
  | .NEW => "NEW"
  | .PDF_EXTRACTED => "PDF_EXTRACTED"
  | .LLM_SUGGEST => "LLM_SUGGEST"
  | .R2_POST_WIDGET => "R2_POST_WIDGET"
  | .WAIT_DOCTOR => "WAIT_DOCTOR"
  | .DOCTOR_ACCEPTED => "DOCTOR_ACCEPTED"
  | .DOCTOR_DENIED => "DOCTOR_DENIED"
  | .R3_POST_REQUEST => "R3_POST_REQUEST"
  | .WAIT_SCHEDULER => "WAIT_SCHEDULER"
  | .APPT_CONFIRMED => "APPT_CONFIRMED"
  | .APPT_DENIED => "APPT_DENIED"
  | .WAIT_R1_CLEANUP_THUMBS => "WAIT_R1_CLEANUP_THUMBS"
  | .CLEANUP_RUNNING => "CLEANUP_RUNNING"
  | .CLEANED => "CLEANED"
  | .FAILED => "FAILED"

/- ### String helpers shared by several embeddings -/

/-- ASCII lowercasing of one character (Python str.lower restricted to the
ASCII range, which covers every string these functions compare). -/
def asciiLowerChar (c : Char) : Char :=
  if 'A' ≤ c ∧ c ≤ 'Z' then Char.ofNat (c.toNat + 32) else c

/-- ASCII lowercasing of a character list. -/
def asciiLowerChars (l : List Char) : List Char := l.map asciiLowerChar

/-- ASCII lowercasing of a string. -/
def asciiLower (s : String) : String := ⟨asciiLowerChars s.data⟩

/-- Whether pat is a leading run of s (Python str.startswith). -/
def startsWithChars : List Char → List Char → Bool
  | [], _ => true
  | _ :: _, [] => false
  | p :: ps, c :: cs => (p == c) && startsWithChars ps cs

/-- Whether pat occurs contiguously inside s (Python `in` on str). -/
def containsChars (pat : List Char) : List Char → Bool
  | [] => startsWithChars pat []
  | c :: cs => startsWithChars pat (c :: cs) || containsChars pat cs

/-- Python substring test needle in hay. -/
def strContains (needle hay : String) : Bool :=
  containsChars needle.data hay.data

/- ### Job failure finalizer (application/services/job_failure_service.py) -/

/-- Source loop of _categorize_failure: return the first candidate that is
a substring of the lowered error, else other. -/
def firstCauseMatch (cands : List String) (lowered : String) : String :=
  match cands with
  | [] => "other"
  | c :: rest => if strContains c lowered then c else firstCauseMatch rest lowered

/-- Source function _categorize_failure. -/
def _categorize_failure (last_error : Option String) : String :=
  match last_error with
  | none => "other"
  | some e =>
    if e = "" then "other"
    else firstCauseMatch ["download", "extract", "record_extract", "llm1", "llm2"]
      (asciiLower e)

/-- Effects of one handle_max_retries call: case status updates, audit
events appended, and jobs enqueued, in order. -/
structure JobFailureEffects where
  status_updates : List (Nat × CaseStatus)
  audit_events : List AuditEventCreateInput
  enqueued : List JobEnqueueInput
  deriving DecidableEq, Repr

/-- Python falsy-default expression (last_error or "unknown error"). -/
def lastErrorOrUnknown (last_error : Option String) : String :=
  match last_error with
  | none => "unknown error"
  | some e => if e = "" then "unknown error" else e

/-- Python string slicing s[:n] (first n code points). -/
def pyTake (s : String) (n : Nat) : String := ⟨s.data.take n⟩

/-- Source method JobFailureService.handle_max_retries, rendered as a pure
effects computation: update case to FAILED, append the two audit events and
enqueue the final-failure job with categorized cause and truncated details. -/
def handle_max_retries (job : JobRecord) : JobFailureEffects :=
  match job.case_id with
  | none => ⟨[], [], []⟩
  | some cid =>
    let audit1 : AuditEventCreateInput :=
      { case_id := cid, actor_type := "system"
        event_type := "CASE_FAILED_MAX_RETRIES"
        payload := [("job_type", .s job.job_type),
                    ("attempts", .n job.attempts),
                    ("last_error", match job.last_error with
                      | none => PVal.null
                      | some e => PVal.s e)] }
    let failure_payload : Payload :=
      [("cause", .s (_categorize_failure job.last_error)),
       ("details", .s (pyTake (lastErrorOrUnknown job.last_error) 300))]
    let audit2 : AuditEventCreateInput :=
      { case_id := cid, actor_type := "system"
        event_type := "JOB_ENQUEUED_POST_ROOM1_FAILURE"
        payload := [("job_type", .s "post_room1_final_failure")] }
    { status_updates := [(cid, CaseStatus.FAILED)]
      audit_events := [audit1, audit2]
      enqueued := [{ job_type := "post_room1_final_failure"
                     case_id := some cid
                     payload := failure_payload }] }

/-- Amended cause derivation written as the claim would have it after the
correction: first match in tuple order, where extract precedes and shadows
record_extract. -/
def c6_spec_cause (last_error : Option String) : String :=
  match last_error with
  | none => "other"
  | some e =>
    if e = "" then "other"
    else
      let low := asciiLower e
      if strContains "download" low then "download"
      else if strContains "extract" low then "extract"
      else if strContains "record_extract" low then "record_extract"
      else if strContains "llm1" low then "llm1"
      else if strContains "llm2" low then "llm2"
      else "other"

/-- Concrete dead-lettered job whose last error mentions record_extract. -/
def c6_cx_job : JobRecord :=
  { job_id := 11, case_id := some 7, job_type := "process_pdf_case"
    status := "dead", run_after := 0, attempts := 5, max_attempts := 5
    last_error := some "record_extract: no registration code found"
    payload := [] }

/- ### HMAC webhook auth (infrastructure/http/hmac_auth.py)
The hashlib/hmac primitives are external stdlib collaborators; they are
implemented here concretely (full SHA-256 and HMAC over byte lists).
Strings arriving as bytes are modelled as lists of byte values; the
signature string is a list of characters. -/

/-- Reduce to 32 bits. -/
def mod32 (x : Nat) : Nat := x % 4294967296

/-- 32-bit rotate right. -/
def rotr32 (x n : Nat) : Nat := ((x >>> n) ||| (x <<< (32 - n))) % 4294967296

/-- 32-bit complement. -/
def not32 (x : Nat) : Nat := x ^^^ 4294967295

/-- SHA-256 choose function. -/
def shaCh (e f g : Nat) : Nat := (e &&& f) ^^^ (not32 e &&& g)

/-- SHA-256 majority function. -/
def shaMaj (a b c : Nat) : Nat := (a &&& b) ^^^ (a &&& c) ^^^ (b &&& c)

/-- SHA-256 big sigma 0. -/
def shaS0 (a : Nat) : Nat := rotr32 a 2 ^^^ rotr32 a 13 ^^^ rotr32 a 22

/-- SHA-256 big sigma 1. -/
def shaS1 (e : Nat) : Nat := rotr32 e 6 ^^^ rotr32 e 11 ^^^ rotr32 e 25

/-- SHA-256 small sigma 0. -/
def shaG0 (x : Nat) : Nat := rotr32 x 7 ^^^ rotr32 x 18 ^^^ (x >>> 3)

/-- SHA-256 small sigma 1. -/
def shaG1 (x : Nat) : Nat := rotr32 x 17 ^^^ rotr32 x 19 ^^^ (x >>> 10)

/-- SHA-256 round constants (the 64 values of FIPS 180-4, in decimal). -/
def shaK : List Nat :=
  [1116352408, 1899447441, 3049323471, 3921009573,
   961987163, 1508970993, 2453635748, 2870763221,
   3624381080, 310598401, 607225278, 1426881987,
   1925078388, 2162078206, 2614888103, 3248222580,
   3835390401, 4022224774, 264347078, 604807628,
   770255983, 1249150122, 1555081692, 1996064986,
   2554220882, 2821834349, 2952996808, 3210313671,
   3336571891, 3584528711, 113926993, 338241895,
   666307205, 773529912, 1294757372, 1396182291,
   1695183700, 1986661051, 2177026350, 2456956037,
   2730485921, 2820302411, 3259730800, 3345764771,
   3516065817, 3600352804, 4094571909, 275423344,
   430227734, 506948616, 659060556, 883997877,
   958139571, 1322822218, 1537002063, 1747873779,
   1955562222, 2024104815, 2227730452, 2361852424,
   2428436474, 2756734187, 3204031479, 3329325298]

/-- Working state of the compression function. -/
structure Sha256State where
  h0 : Nat
  h1 : Nat
  h2 : Nat
  h3 : Nat
  h4 : Nat
  h5 : Nat
  h6 : Nat
  h7 : Nat
  deriving DecidableEq, Repr

/-- Big-endian byte encoding of v on n bytes. -/
def beBytes : Nat → Nat → List Nat
  | 0, _ => []
  | n + 1, v => ((v >>> (8 * n)) % 256) :: beBytes n v

/-- Parse consecutive 4-byte groups as big-endian 32-bit words. -/
def toWords32 : List Nat → List Nat
  | b1 :: b2 :: b3 :: b4 :: rest =>
    (b1 * 16777216 + b2 * 65536 + b3 * 256 + b4) :: toWords32 rest
  | _ => []

/-- Extend the 16-word schedule by n further words. -/
def extendW : Nat → List Nat → List Nat
  | 0, w => w
  | n + 1, w =>
    let t := mod32 (shaG1 (w.getD (w.length - 2) 0) + w.getD (w.length - 7) 0 +
      shaG0 (w.getD (w.length - 15) 0) + w.getD (w.length - 16) 0)
    extendW n (w ++ [t])

/-- One compression round on the working state. -/
def shaRound (st : Sha256State) (kw : Nat × Nat) : Sha256State :=
  let t1 := mod32 (st.h7 + shaS1 st.h4 + shaCh st.h4 st.h5 st.h6 + kw.1 + kw.2)
  let t2 := mod32 (shaS0 st.h0 + shaMaj st.h0 st.h1 st.h2)
  ⟨mod32 (t1 + t2), st.h0, st.h1, st.h2, mod32 (st.h3 + t1), st.h4, st.h5, st.h6⟩

/-- Compress one 64-byte block into the state. -/
def shaCompress (st : Sha256State) (block : List Nat) : Sha256State :=
  let w := extendW 48 (toWords32 block)
  let e := (shaK.zip w).foldl shaRound st
  ⟨mod32 (st.h0 + e.h0), mod32 (st.h1 + e.h1), mod32 (st.h2 + e.h2),
   mod32 (st.h3 + e.h3), mod32 (st.h4 + e.h4), mod32 (st.h5 + e.h5),
   mod32 (st.h6 + e.h6), mod32 (st.h7 + e.h7)⟩

/-- SHA-256 padding: 0x80, zeros to 56 mod 64, 8-byte bit length. -/
def shaPad (msg : List Nat) : List Nat :=
  msg ++ 128 :: (List.replicate ((119 - msg.length % 64) % 64) 0 ++
    beBytes 8 (8 * msg.length))

/-- Split into 64-byte blocks (fuel bounds the recursion). -/
def chunk64 : Nat → List Nat → List (List Nat)
  | 0, _ => []
  | _, [] => []
  | f + 1, l => l.take 64 :: chunk64 f (l.drop 64)

/-- SHA-256 initial state (the eight initial hash values, in decimal). -/
def sha256InitState : Sha256State :=
  ⟨1779033703, 3144134277, 1013904242, 2773480762,
   1359893119, 2600822924, 528734635, 1541459225⟩

/-- Serialize the final state as 32 digest bytes. -/
def sha256DigestBytes (st : Sha256State) : List Nat :=
  beBytes 4 st.h0 ++ beBytes 4 st.h1 ++ beBytes 4 st.h2 ++ beBytes 4 st.h3 ++
  beBytes 4 st.h4 ++ beBytes 4 st.h5 ++ beBytes 4 st.h6 ++ beBytes 4 st.h7

/-- SHA-256 of a byte list. -/
def sha256 (msg : List Nat) : List Nat :=
  let padded := shaPad msg
  sha256DigestBytes ((chunk64 padded.length padded).foldl shaCompress sha256InitState)

/-- HMAC-SHA256 of body under secret (RFC 2104, block size 64). -/
def hmacSha256 (secret body : List Nat) : List Nat :=
  let key0 := if 64 < secret.length then sha256 secret else secret
  let key := key0 ++ List.replicate (64 - key0.length) 0
  let ipadKey := key.map (fun b => b ^^^ 54)
  let opadKey := key.map (fun b => b ^^^ 92)
  sha256 (opadKey ++ sha256 (ipadKey ++ body))

/-- Lowercase hexadecimal alphabet. -/
def hexTable : List Char :=
  "0123456789abcdef".data

/-- One lowercase hexadecimal digit. -/
def hexDigit (n : Nat) : Char := hexTable.getD (n % 16) '0'

/-- Lowercase hexadecimal rendering of a byte list (hexdigest). -/
def hexEncode : List Nat → List Char
  | [] => []
  | b :: rest => hexDigit (b / 16) :: hexDigit (b % 16) :: hexEncode rest

/-- Source function compute_hmac_sha256: hex HMAC-SHA256 digest of the raw
body; the secret string is given by its UTF-8 bytes. -/
def compute_hmac_sha256 (secret body : List Nat) : List Char :=
  hexEncode (hmacSha256 secret body)

/-- ASCII whitespace test (Python str.strip class, ASCII range). -/
def isPySpace (c : Char) : Bool := (c == ' ') || (9 ≤ c.toNat && c.toNat ≤ 13)

/-- Python str.strip on a character list. -/
def pyStripChars (l : List Char) : List Char :=
  ((l.dropWhile isPySpace).reverse.dropWhile isPySpace).reverse

/-- The characters of the literal scheme marker sha256=. -/
def schemeChars : List Char := ['s', 'h', 'a', '2', '5', '6', '=']

/-- Python split on the first equals sign, keeping the second part. -/
def splitAfterFirstEq (l : List Char) : List Char :=
  (l.dropWhile (fun c => !(c == '='))).drop 1

/-- Normalization performed by verify_hmac_signature on the provided
signature: strip, lowercase, and drop an optional sha256= scheme. -/
def normalize_signature (sig : List Char) : List Char :=
  let normalized := asciiLowerChars (pyStripChars sig)
  if startsWithChars schemeChars normalized then splitAfterFirstEq normalized
  else normalized

/-- Source function verify_hmac_signature: reject missing or empty
signatures, normalize, and compare against the computed digest
(hmac.compare_digest is equality with constant-time evaluation). -/
def verify_hmac_signature (secret body : List Nat)
    (provided_signature : Option (List Char)) : Bool :=
  match provided_signature with
  | none => false
  | some sig =>
    if sig.isEmpty then false
    else
      let normalized := normalize_signature sig
      let expected := compute_hmac_sha256 secret body
      expected == normalized

/-- The provided signature differs from the reference in exactly one
position (a single-byte mutation). -/
def one_byte_off (xs ys : List Char) : Prop :=
  xs.length = ys.length ∧
  ∃ i, i < ys.length ∧ xs.getD i ' ' ≠ ys.getD i ' ' ∧
    ∀ j, j < ys.length → j ≠ i → xs.getD j ' ' = ys.getD j ' '

/- ### Room-4 summary window and scheduler
(application/services/supervisor_summary_scheduler_service.py,
infrastructure/db/supervisor_summary_dispatch_repository.py)
Instants are epoch seconds (Int).  The named timezone is modelled as a
fixed UTC offset in seconds: America/Bahia is UTC-3 year round at the
instants in scope (Brazil abolished DST in 2019), so local time is
utc + offset. -/

/-- Local civil day number of a local instant (floor division). -/
def localDay (localNow : Int) : Int := Int.fdiv localNow 86400

/-- Source dataclass SupervisorSummaryWindow (epoch seconds). -/
structure SupervisorSummaryWindow where
  window_start_local : Int
  window_end_local : Int
  window_start_utc : Int
  window_end_utc : Int
  deriving DecidableEq, Repr

/-- The four cutoff candidates built by resolve_previous_summary_window:
previous and current local day, at the morning and evening hours. -/
def c4_candidates (run_at_utc tz_offset : Int)
    (morning_hour evening_hour : Nat) : List Int :=
  let localNow := run_at_utc + tz_offset
  let d := localDay localNow
  [(d - 1) * 86400 + morning_hour * 3600,
   (d - 1) * 86400 + evening_hour * 3600,
   d * 86400 + morning_hour * 3600,
   d * 86400 + evening_hour * 3600]

/-- Source function resolve_previous_summary_window: keep candidates not
after the local run instant, end at their maximum, window is the 12 hours
before; raises (Except.error) when no candidate is eligible. -/
def resolve_previous_summary_window (run_at_utc tz_offset : Int)
    (morning_hour evening_hour : Nat) :
    Except String SupervisorSummaryWindow :=
  let localNow := run_at_utc + tz_offset
  let eligible := (c4_candidates run_at_utc tz_offset morning_hour
    evening_hour).filter (fun c => c ≤ localNow)
  match eligible.max? with
  | none => .error "unable to resolve previous summary cutoff"
  | some window_end_local =>
    .ok ⟨window_end_local - 43200, window_end_local,
      window_end_local - 43200 - tz_offset, window_end_local - tz_offset⟩

/-- Dispatch table row (supervisor_summary_dispatches). -/
structure DispatchRow where
  room_id : String
  window_start : Int
  window_end : Int
  status : String
  deriving DecidableEq, Repr

/-- Source dataclass SupervisorSummaryWindowKey. -/
structure SupervisorSummaryWindowKey where
  room_id : String
  window_start : Int
  window_end : Int
  deriving DecidableEq, Repr

/-- Row identity test of the unique (room_id, window_start, window_end)
constraint. -/
def rowMatchesKey (r : DispatchRow) (k : SupervisorSummaryWindowKey) : Bool :=
  r.room_id == k.room_id && r.window_start == k.window_start &&
    r.window_end == k.window_end

/-- Source method claim_window: insert a pending row, and on a duplicate
key collision run the compare-and-set reclaim failed to pending, returning
whether exactly one row was updated. -/
def claim_window (k : SupervisorSummaryWindowKey) (rows : List DispatchRow) :
    Bool × List DispatchRow :=
  if rows.any (fun r => rowMatchesKey r k) then
    let updated := rows.map (fun r =>
      if rowMatchesKey r k && r.status == "failed" then
        { r with status := "pending" }
      else r)
    let rowcount := (rows.filter (fun r =>
      rowMatchesKey r k && r.status == "failed")).length
    (rowcount == 1, updated)
  else
    (true, rows ++ [⟨k.room_id, k.window_start, k.window_end, "pending"⟩])

/-- Modelled from the spec: queue Enqueue contract of section 4.2 (the SQL
queue repository is not under src): insert one queued row. -/
def jobs_enqueue (jobs : List JobRecord) (inp : JobEnqueueInput) :
    JobRecord × List JobRecord :=
  let row : JobRecord :=
    { job_id := jobs.length, case_id := inp.case_id
      job_type := inp.job_type, status := "queued"
      run_after := inp.run_after.getD 0, attempts := 0
      max_attempts := inp.max_attempts, last_error := none
      payload := inp.payload }
  (row, jobs ++ [row])

/-- Database state touched by the summary scheduler. -/
structure SchedulerState where
  dispatches : List DispatchRow
  jobs : List JobRecord
  deriving DecidableEq, Repr

/-- Source dataclass SupervisorSummaryScheduleResult (window omitted, it is
a pure function of the run instant). -/
structure SupervisorSummaryScheduleResult where
  claimed_dispatch : Bool
  enqueued_job_id : Option Nat
  deriving DecidableEq, Repr

/-- Payload of the post_room4_summary job; the isoformat instants are
represented by the instants themselves (isoformat is injective). -/
def c3_payload (room4_id timezone_name : String)
    (w : SupervisorSummaryWindow) : Payload :=
  [("room_id", .s room4_id), ("window_start", .n w.window_start_utc),
   ("window_end", .n w.window_end_utc), ("timezone", .s timezone_name)]

/-- Source method enqueue_previous_window_summary: resolve the window,
claim the dispatch, and enqueue one post_room4_summary job if claimed. -/
def enqueue_previous_window_summary (room4_id timezone_name : String)
    (tz_offset : Int) (morning_hour evening_hour : Nat) (run_at_utc : Int)
    (st : SchedulerState) :
    Except String (SupervisorSummaryScheduleResult × SchedulerState) :=
  match resolve_previous_summary_window run_at_utc tz_offset morning_hour
    evening_hour with
  | .error e => .error e
  | .ok window =>
    let claim := claim_window
      ⟨room4_id, window.window_start_utc, window.window_end_utc⟩
      st.dispatches
    if claim.1 then
      let enq := jobs_enqueue st.jobs
        { job_type := "post_room4_summary", case_id := none
          payload := c3_payload room4_id timezone_name window }
      .ok (⟨true, some enq.1.job_id⟩, ⟨claim.2, enq.2⟩)
    else
      .ok (⟨false, none⟩, ⟨claim.2, st.jobs⟩)

/-- Number of dispatch rows carrying one window key. -/
def countDispatchRows (rows : List DispatchRow)
    (k : SupervisorSummaryWindowKey) : Nat :=
  (rows.filter (fun r => rowMatchesKey r k)).length

/-- Number of queued post_room4_summary jobs carrying one payload. -/
def countSummaryJobs (jobs : List JobRecord) (p : Payload) : Nat :=
  (jobs.filter (fun j => j.job_type == "post_room4_summary" &&
    decide (j.payload = p) && j.status == "queued")).length

/- ### Recovery service (application/services/recovery_service.py) -/

/-- Snapshot consumed by the recovery scan (CaseRecoverySnapshot of the
case repository port; the timestamps are epoch seconds). -/
structure CaseRecoverySnapshot where
  case_id : Nat
  status : CaseStatus
  cleanup_triggered_at : Option Int
  cleanup_completed_at : Option Int
  deriving DecidableEq, Repr

/-- Source function _resolve_recovery_job: the continuation job for one
non-terminal snapshot. -/
def _resolve_recovery_job (snapshot : CaseRecoverySnapshot) : Option String :=
  if snapshot.status = .R2_POST_WIDGET ∨ snapshot.status = .LLM_SUGGEST then
    some "post_room2_widget"
  else if snapshot.status = .DOCTOR_ACCEPTED ∨
      snapshot.status = .R3_POST_REQUEST then
    some "post_room3_request"
  else if snapshot.status = .DOCTOR_DENIED then
    some "post_room1_final_denial_triage"
  else if snapshot.status = .APPT_CONFIRMED then
    some "post_room1_final_appt"
  else if snapshot.status = .APPT_DENIED then
    some "post_room1_final_appt_denied"
  else if snapshot.status = .FAILED then
    some "post_room1_final_failure"
  else if snapshot.status = .CLEANUP_RUNNING then
    some "execute_cleanup"
  else if snapshot.status = .WAIT_R1_CLEANUP_THUMBS ∧
      snapshot.cleanup_triggered_at ≠ none ∧
      snapshot.cleanup_completed_at = none then
    some "execute_cleanup"
  else none

/-- Modelled from the spec: HasActiveJob of the queue contract (section
4.2): some queued or running row exists for the case and type. -/
def has_active_job (jobs : List JobRecord) (case_id : Nat)
    (job_type : String) : Bool :=
  jobs.any (fun j => j.case_id == some case_id && j.job_type == job_type &&
    (j.status == "queued" || j.status == "running"))

/-- Source payload selection of RecoveryService.recover. -/
def recovery_payload (job_type : String) : Payload :=
  if job_type = "post_room1_final_failure" then
    [("cause", .s "other"),
     ("details", .s "recovery enqueued missing failure finalization job")]
  else []

/-- Source method RecoveryService.recover, rendered as a fold over the
snapshots threading the queue: returns the final queue, the audit events
written, and the enqueued count. -/
def recover : List CaseRecoverySnapshot → List JobRecord →
    List JobRecord × List AuditEventCreateInput × Nat
  | [], jobs => (jobs, [], 0)
  | snap :: rest, jobs =>
    match _resolve_recovery_job snap with
    | none => recover rest jobs
    | some recovery_job =>
      if has_active_job jobs snap.case_id recovery_job then recover rest jobs
      else
        let enq := jobs_enqueue jobs
          { job_type := recovery_job, case_id := some snap.case_id
            payload := recovery_payload recovery_job }
        let audit : AuditEventCreateInput :=
          { case_id := snap.case_id, actor_type := "system"
            event_type := "RECOVERY_JOB_ENQUEUED"
            payload := [("status", .s snap.status.value),
                        ("job_type", .s recovery_job)] }
        let tail := recover rest enq.2
        (tail.1, audit :: tail.2.1, tail.2.2 + 1)

/-- The continuation mapping as the claim states it. -/
def c7_spec_continuation (snapshot : CaseRecoverySnapshot) : Option String :=
  match snapshot.status with
  | .R2_POST_WIDGET => some "post_room2_widget"
  | .LLM_SUGGEST => some "post_room2_widget"
  | .DOCTOR_ACCEPTED => some "post_room3_request"
  | .R3_POST_REQUEST => some "post_room3_request"
  | .DOCTOR_DENIED => some "post_room1_final_denial_triage"
  | .APPT_CONFIRMED => some "post_room1_final_appt"
  | .APPT_DENIED => some "post_room1_final_appt_denied"
  | .FAILED => some "post_room1_final_failure"
  | .CLEANUP_RUNNING => some "execute_cleanup"
  | .WAIT_R1_CLEANUP_THUMBS =>
    if snapshot.cleanup_triggered_at ≠ none ∧
        snapshot.cleanup_completed_at = none then
      some "execute_cleanup"
    else none
  | _ => none

/- ### Prompt template repository (infrastructure/db/prompt_template_repository.py)
The prompt_templates table is modelled as a list of rows; a transaction is
one atomic function application. -/

/-- One prompt_templates row. -/
structure PromptRow where
  name : String
  version : Nat
  content : String
  is_active : Bool
  deriving DecidableEq, Repr

/-- Source method activate_prompt_version: inside one transaction, if the
target (name, version) exists, first UPDATE all active rows of the name to
inactive, then UPDATE the target row to active; otherwise no change. -/
def activate_prompt_version (rows : List PromptRow) (name : String)
    (version : Nat) : List PromptRow :=
  if rows.any (fun r => r.name == name && r.version == version) then
    (rows.map (fun r =>
      if r.name == name && r.is_active then { r with is_active := false }
      else r)).map (fun r =>
        if r.name == name && r.version == version then
          { r with is_active := true }
        else r)
  else rows

/-- COALESCE(MAX(version), 0) + 1 over the rows of one name. -/
def next_prompt_version (rows : List PromptRow) (name : String) : Nat :=
  (rows.filterMap (fun r =>
    if r.name == name then some r.version else none)).foldl max 0 + 1

/-- Source method create_prompt_version: if the source (name, version)
exists, insert the next version with is_active false; otherwise no
change. -/
def create_prompt_version (rows : List PromptRow) (name : String)
    (source_version : Nat) (content : String) : List PromptRow :=
  if rows.any (fun r => r.name == name && r.version == source_version) then
    rows ++ [⟨name, next_prompt_version rows name, content, false⟩]
  else rows

/-- The prompt-active invariant for one name: at most one active row. -/
def at_most_one_active (rows : List PromptRow) (name : String) : Prop :=
  rows.countP (fun r => r.name == name && r.is_active) ≤ 1

/-- The unique (name, version) key constraint of prompt_templates. -/
def prompt_keys_unique (rows : List PromptRow) : Prop :=
  List.Pairwise (fun r1 r2 => ¬(r1.name = r2.name ∧ r1.version = r2.version))
    rows

/- ### Cleanup executor (application/services/execute_cleanup_service.py)
One adapter call either succeeds or raises an error carrying an optional
HTTP status code and the optional retry_after_ms value that
_extract_retry_after_ms_from_text would find in its details or message
(the JSON/regex text parsing is collapsed into that field). -/

/-- Outcome of one matrix redact_event call. -/
inductive RedactOutcome where
  | ok
  | err (status_code : Option Int) (retry_after_ms : Option Nat)
  deriving DecidableEq, Repr

/-- Source function _extract_retry_delay_seconds, in milliseconds: None
unless the error is rate-limit shaped; the floor is 200 ms. -/
def _extract_retry_delay_ms (status_code : Option Int)
    (retry_after_ms : Option Nat) : Option Nat :=
  match status_code with
  | some c =>
    if c ≠ 429 then none
    else
      match retry_after_ms with
      | some ms => some (max 200 ms)
      | none => some 200
  | none =>
    match retry_after_ms with
    | some ms => some (max 200 ms)
    | none => none

/-- Source loop of _redact_with_retry: attempts run from attempt up while
fuel lasts; each raise is either retried (recording the sleep) when a
delay is available and attempts remain, or propagated.  Returns the
outcome, the sleeps performed (ms), and the number of adapter calls. -/
def redactGo (adapter : Nat → RedactOutcome) (max_attempts : Nat) :
    Nat → Nat → Except (Option Int × Option Nat) Unit × List Nat × Nat
  | _, 0 => (.error (none, none), [], 0)
  | attempt, fuel + 1 =>
    match adapter attempt with
    | .ok => (.ok (), [], 1)
    | .err sc ms =>
      match _extract_retry_delay_ms sc ms with
      | none => (.error (sc, ms), [], 1)
      | some delay =>
        if max_attempts ≤ attempt then (.error (sc, ms), [], 1)
        else
          let rest := redactGo adapter max_attempts (attempt + 1) fuel
          (rest.1, delay :: rest.2.1, rest.2.2 + 1)

/-- Source method _redact_with_retry (attempts 1..max_attempts). -/
def _redact_with_retry (adapter : Nat → RedactOutcome)
    (max_attempts : Nat) :
    Except (Option Int × Option Nat) Unit × List Nat × Nat :=
  redactGo adapter max_attempts 1 max_attempts

/-- Source dataclass ExecuteCleanupResult. -/
structure ExecuteCleanupResult where
  redacted_success : Nat
  redacted_failed : Nat
  deriving DecidableEq, Repr

/-- Per-event pass of ExecuteCleanupService.execute: success and failure
counts, per-event audit events in processing order, and the sleeps
performed.  The error payload text is not modelled (null). -/
def cleanupGo (case_id : Nat) (max_attempts : Nat) :
    List (String × String × (Nat → RedactOutcome)) →
    Nat × Nat × List AuditEventCreateInput × List Nat
  | [] => (0, 0, [], [])
  | (room_id, event_id, adapter) :: rest =>
    let r := _redact_with_retry adapter max_attempts
    let tail := cleanupGo case_id max_attempts rest
    match r.1 with
    | .ok _ =>
      (tail.1 + 1, tail.2.1,
       ({ case_id := case_id, actor_type := "system"
          event_type := "MATRIX_EVENT_REDACTED", payload := []
          room_id := some room_id, matrix_event_id := some event_id }
         : AuditEventCreateInput) :: tail.2.2.1,
       r.2.1 ++ tail.2.2.2)
    | .error _ =>
      (tail.1, tail.2.1 + 1,
       ({ case_id := case_id, actor_type := "system"
          event_type := "MATRIX_EVENT_REDACTION_FAILED"
          payload := [("error", PVal.null)]
          room_id := some room_id, matrix_event_id := some event_id }
         : AuditEventCreateInput) :: tail.2.2.1,
       r.2.1 ++ tail.2.2.2)

/-- Effects of one ExecuteCleanupService.execute run. -/
structure CleanupEffects where
  result : ExecuteCleanupResult
  audit_events : List AuditEventCreateInput
  status_updates : List (Nat × CaseStatus)
  sleeps : List Nat
  deriving Repr

/-- Source method ExecuteCleanupService.execute: redact every tracked
event under the retry loop, then mark the case CLEANED
(mark_cleanup_completed, modelled from the spec since the SQL case
repository is absent from src) and write CLEANUP_COMPLETED with both
counts. -/
def execute_cleanup (case_id : Nat) (max_attempts : Nat)
    (events : List (String × String × (Nat → RedactOutcome))) :
    CleanupEffects :=
  let pass := cleanupGo case_id max_attempts events
  { result := ⟨pass.1, pass.2.1⟩
    audit_events := pass.2.2.1 ++
      [{ case_id := case_id, actor_type := "system"
         event_type := "CLEANUP_COMPLETED"
         payload := [("count_redacted_success", .n pass.1),
                     ("count_redacted_failed", .n pass.2.1)] }]
    status_updates := [(case_id, CaseStatus.CLEANED)]
    sleeps := pass.2.2.2 }

/-- The retry condition as the claim would have it after correction: a 429
status retries (with the 200 ms floor when no retry_after_ms is present),
and a status-less error retries when a retry_after_ms value is found. -/
def c8_spec_retriable (status_code : Option Int)
    (retry_after_ms : Option Nat) : Bool :=
  match status_code with
  | some c => c == 429
  | none => retry_after_ms.isSome

/- ### Record-number extractor (domain/record_number.py,
domain/patient_registration_code.py)
Text is a character list; the two regular expressions are rendered as
explicit scanners.  Word characters follow the re module with the
approximation that every non-ASCII character counts as a word character
(in these reports the non-ASCII characters are accented letters).  The
clock dependency (time.time_ns of the fallback) is an explicit nowMillis
argument. -/

/-- Word-character test for the word boundaries of the patterns. -/
def isWordChar (c : Char) : Bool :=
  c.isAlphanum || c == '_' || decide (128 ≤ c.toNat)

/-- Whether the previous character (none at the start) ends a word. -/
def prevIsWord (prev : Option Char) : Bool :=
  match prev with
  | none => false
  | some c => isWordChar c

/-- Whether the next position starts with a non-word character or the end. -/
def nextNonWord (s : List Char) : Bool :=
  match s with
  | [] => true
  | c :: _ => !(isWordChar c)

/-- Case-insensitive literal match (the pattern is given lowercase ASCII);
returns the rest of the input on success. -/
def matchCI : List Char → List Char → Option (List Char)
  | [], s => some s
  | _ :: _, [] => none
  | p :: ps, c :: cs => if asciiLowerChar c == p then matchCI ps cs else none

/-- One attempt of the code-label pattern at the current position:
a word boundary, C, one of o O ó Ó, digo (case-insensitive), optional
spaces, a colon, optional spaces, and a captured run of 5 or more digits
followed by a word boundary.  Returns the offset of the digit group from
the match start and the digits. -/
def tryCodeLabelAt (prevWord : Bool) (s : List Char) :
    Option (Nat × List Char) :=
  if prevWord then none
  else
    match s with
    | c1 :: c2 :: rest =>
      if (asciiLowerChar c1 == 'c') &&
          (c2 == 'o' || c2 == 'O' || c2 == 'ó' || c2 == 'Ó') then
        match matchCI ['d', 'i', 'g', 'o'] rest with
        | none => none
        | some r1 =>
          let p1 := r1.span isPySpace
          match p1.2 with
          | ':' :: r3 =>
            let p2 := r3.span isPySpace
            let pd := p2.2.span Char.isDigit
            if decide (5 ≤ pd.1.length) && nextNonWord pd.2 then
              some (2 + 4 + p1.1.length + 1 + p2.1.length, pd.1)
            else none
          | _ => none
      else none
    | _ => none

/-- The lazy gap of the header pattern: from the current position, walk at
most the fuel forward (120 gap characters) to the first position carrying
a word boundary, a run of 5 or more digits, and a closing word boundary;
returns the gap width and the digits. -/
def findDigitsLazy : Nat → Option Char → List Char → Option (Nat × List Char)
  | fuel, prev, s =>
    let pd := s.span Char.isDigit
    if !(prevIsWord prev) && decide (5 ≤ pd.1.length) && nextNonWord pd.2 then
      some (0, pd.1)
    else
      match fuel, s with
      | 0, _ => none
      | _, [] => none
      | f + 1, c :: cs =>
        (findDigitsLazy f (some c) cs).map (fun p => (p.1 + 1, p.2))

/-- One attempt of the report-header flow pattern at the current position:
RELAT, one of o O ó Ó, RIO, spaces, DE, spaces, OCORR, one of e E ê Ê,
NCIAS (all case-insensitive), an optional greedy group of spaces plus a
colon or hyphen, then the lazy gap of at most 120 characters before a
word-bounded run of 5 or more digits.  Returns the offset of the digit
group from the match start and the digits. -/
def tryHeaderAt (s : List Char) : Option (Nat × List Char) :=
  match matchCI ['r', 'e', 'l', 'a', 't'] s with
  | none => none
  | some r1 =>
    match r1 with
    | [] => none
    | c :: r2 =>
      if c == 'o' || c == 'O' || c == 'ó' || c == 'Ó' then
        match matchCI ['r', 'i', 'o'] r2 with
        | none => none
        | some r3 =>
          let q1 := r3.span isPySpace
          if q1.1.isEmpty then none
          else
            match matchCI ['d', 'e'] q1.2 with
            | none => none
            | some r5 =>
              let q2 := r5.span isPySpace
              if q2.1.isEmpty then none
              else
                match matchCI ['o', 'c', 'o', 'r', 'r'] q2.2 with
                | none => none
                | some r7 =>
                  match r7 with
                  | [] => none
                  | e :: r8 =>
                    if e == 'e' || e == 'E' || e == 'ê' || e == 'Ê' then
                      match matchCI ['n', 'c', 'i', 'a', 's'] r8 with
                      | none => none
                      | some r9 =>
                        let k := 5 + 1 + 3 + q1.1.length + 2 +
                          q2.1.length + 5 + 1 + 5
                        let q3 := r9.span isPySpace
                        let fallback :=
                          (findDigitsLazy 120 (some 's') r9).map
                            (fun p => (k + p.1, p.2))
                        match q3.2 with
                        | c3 :: r11 =>
                          if c3 == ':' || c3 == '-' then
                            match findDigitsLazy 120 (some c3) r11 with
                            | some p =>
                              some (k + q3.1.length + 1 + p.1, p.2)
                            | none => fallback
                          else fallback
                        | [] => fallback
                    else none
      else none

/-- finditer for the code-label pattern: scan left to right, record the
absolute digit-group position and digits of each match, and continue after
the match end (the last digit). -/
def scanCodeLabel : Nat → Option Char → Nat → List Char →
    List (Nat × List Char)
  | 0, _, _, _ => []
  | fuel + 1, prev, pos, s =>
    match s with
    | [] => []
    | c :: rest =>
      match tryCodeLabelAt (prevIsWord prev) s with
      | some m =>
        (pos + m.1, m.2) ::
          scanCodeLabel fuel m.2.getLast? (pos + m.1 + m.2.length)
            (s.drop (m.1 + m.2.length))
      | none => scanCodeLabel fuel (some c) (pos + 1) rest

/-- finditer for the report-header flow pattern (no leading boundary). -/
def scanHeaderFlow : Nat → Nat → List Char → List (Nat × List Char)
  | 0, _, _ => []
  | fuel + 1, pos, s =>
    match s with
    | [] => []
    | _ :: rest =>
      match tryHeaderAt s with
      | some m =>
        (pos + m.1, m.2) ::
          scanHeaderFlow fuel (pos + m.1 + m.2.length)
            (s.drop (m.1 + m.2.length))
      | none => scanHeaderFlow fuel (pos + 1) rest

/-- Drop duplicate (position, code) keys, keeping first occurrences
(fuel at least the list length). -/
def dedupeKeys : Nat → List (Nat × List Char) → List (Nat × List Char)
  | 0, _ => []
  | _, [] => []
  | fuel + 1, x :: xs => x :: dedupeKeys fuel (xs.filter (fun y => !(y == x)))

/-- Stable insertion by group position: before the first entry of
greater-or-equal position. -/
def insertByPos (x : Nat × List Char) : List (Nat × List Char) →
    List (Nat × List Char)
  | [] => [x]
  | y :: ys => if y.1 < x.1 then y :: insertByPos x ys else x :: y :: ys

/-- Stable sort by group position (insertion sort). -/
def sortByPos : List (Nat × List Char) → List (Nat × List Char)
  | [] => []
  | x :: xs => insertByPos x (sortByPos xs)

/-- Source function _iter_code_matches, projected to its codes: matches of
both patterns, deduplicated by (group start, code) and stably sorted by
group start. -/
def _iter_code_matches (text : List Char) : List (Nat × List Char) :=
  let all := scanCodeLabel text.length none 0 text ++
    scanHeaderFlow text.length 0 text
  sortByPos (dedupeKeys all.length all)

/-- Source function extract_patient_registration_codes. -/
def extract_patient_registration_codes (text : String) : List String :=
  (_iter_code_matches text.data).map (fun m => String.mk m.2)

/-- re.sub of a word-bounded literal token by a single space: scan the
original text; at a boundary-delimited occurrence emit one space and
continue after the occurrence (the boundary context stays that of the
original text). -/
def subWordBounded (token : List Char) : Nat → Option Char → List Char →
    List Char
  | 0, _, s => s
  | fuel + 1, prev, s =>
    match s with
    | [] => []
    | c :: rest =>
      if !(prevIsWord prev) && startsWithChars token s &&
          nextNonWord (s.drop token.length) then
        ' ' :: subWordBounded token fuel token.getLast? (s.drop token.length)
      else c :: subWordBounded token fuel (some c) rest

/-- Whether a word-bounded occurrence of the token exists (findall count
at least one for a 5-digit token). -/
def hasWordBoundedToken (token : List Char) : Nat → Option Char →
    List Char → Bool
  | 0, _, _ => false
  | fuel + 1, prev, s =>
    match s with
    | [] => false
    | c :: rest =>
      (!(prevIsWord prev) && startsWithChars token s &&
        nextNonWord (s.drop token.length)) ||
      hasWordBoundedToken token fuel (some c) rest

/-- Split on newline characters, one segment per separator. -/
def splitLF : List Char → List (List Char)
  | [] => [[]]
  | c :: rest =>
    if c == '\n' then [] :: splitLF rest
    else
      match splitLF rest with
      | h :: t => (c :: h) :: t
      | [] => [[c]]

/-- Python str.splitlines restricted to newline separators: no trailing
empty segment, and the empty string has no lines. -/
def pySplitlines (l : List Char) : List (List Char) :=
  if l.isEmpty then []
  else
    let p := splitLF l
    if p.getLast? == some [] then p.dropLast else p

/-- Join lines with newline characters. -/
def joinLF (lines : List (List Char)) : List Char :=
  (lines.intersperse ['\n']).flatten

/-- Whitespace-separated tokens of one line. -/
def whitespaceTokens : Nat → List Char → List (List Char)
  | 0, _ => []
  | fuel + 1, l =>
    let l1 := l.dropWhile isPySpace
    match l1 with
    | [] => []
    | _ :: _ =>
      let p := l1.span (fun c => !(isPySpace c))
      p.1 :: whitespaceTokens fuel p.2

/-- The repeated-watermark line pattern: optional spaces, a 5-digit token,
at least three further copies of the same token separated by spaces, and
optional trailing spaces; equivalently, at least four identical 5-digit
whitespace tokens and nothing else. -/
def lineWatermarkToken (line : List Char) : Option (List Char) :=
  match whitespaceTokens line.length line with
  | [] => none
  | t :: rest =>
    if decide (t.length = 5) && t.all Char.isDigit &&
        decide (3 ≤ rest.length) && rest.all (fun x => x == t) then
      some t
    else none

/-- Drop duplicate character-list entries, keeping first occurrences
(fuel at least the list length). -/
def dedupeChars : Nat → List (List Char) → List (List Char)
  | 0, _ => []
  | _, [] => []
  | fuel + 1, x :: xs => x :: dedupeChars fuel (xs.filter (fun y => !(y == x)))

/-- Source function _strip_repeated_five_digit_watermarks: collect the
tokens of repeated-watermark lines other than the protected token, drop
those lines, and then remove the remaining word-bounded occurrences of
each such token that still occurs (substitutions for distinct bounded
5-digit tokens commute, so the set iteration order of the source does not
matter). -/
def _strip_repeated_five_digit_watermarks (text : List Char)
    (protected_token : List Char) : List Char :=
  let lines := pySplitlines text
  let matched := lines.filterMap lineWatermarkToken
  let candidates := (dedupeChars matched.length matched).filter
    (fun t => !(t == protected_token))
  if candidates.isEmpty then text
  else
    let filtered_lines := lines.filter (fun line =>
      match lineWatermarkToken line with
      | some t => !(candidates.contains t)
      | none => true)
    let partially_cleaned := joinLF filtered_lines
    let removable := candidates.filter (fun t =>
      hasWordBoundedToken t partially_cleaned.length none partially_cleaned)
    if removable.isEmpty then partially_cleaned
    else
      removable.foldl (fun acc t =>
        subWordBounded t acc.length none acc) partially_cleaned

/-- Collapse runs of spaces and tabs into one space. -/
def collapseBlanks : Nat → List Char → List Char
  | 0, s => s
  | fuel + 1, s =>
    match s with
    | [] => []
    | c :: rest =>
      if c == ' ' || c == '\t' then
        ' ' :: collapseBlanks fuel
          (rest.dropWhile (fun x => x == ' ' || x == '\t'))
      else c :: collapseBlanks fuel rest

/-- Source function _normalize_preserving_linebreaks: per line collapse
space runs and strip; skip leading blanks and collapse blank runs; join
and strip the whole. -/
def _normalize_preserving_linebreaks (text : List Char) : List Char :=
  let normalized_lines := (pySplitlines text).foldl
    (fun acc raw_line =>
      let compact := pyStripChars (collapseBlanks raw_line.length raw_line)
      if compact.isEmpty then
        if !(acc.isEmpty) && !(acc.getLast? == some []) then acc ++ [[]]
        else acc
      else acc ++ [compact])
    []
  pyStripChars (joinLF normalized_lines)

/-- Source dataclass RecordNumberExtractionResult. -/
structure RecordNumberExtractionResult where
  agency_record_number : String
  cleaned_text : String
  deriving DecidableEq, Repr

/-- Source function extract_and_strip_agency_record_number: select the
first explicit registration code, falling back to the clock (epoch
milliseconds) when none exists; strip the word-bounded occurrences of the
selected token, remove repeated watermark bands, and normalize. -/
def extract_and_strip_agency_record_number (nowMillis : Nat)
    (text : String) : RecordNumberExtractionResult :=
  let explicit_codes := extract_patient_registration_codes text
  let selected : List Char :=
    match explicit_codes with
    | c :: _ => c.data
    | [] => (Nat.repr nowMillis).data
  let cleaned_text := subWordBounded selected text.data.length none text.data
  let cleaned_text2 := _strip_repeated_five_digit_watermarks cleaned_text
    selected
  let normalized_text := _normalize_preserving_linebreaks cleaned_text2
  ⟨String.mk selected, String.mk normalized_text⟩

/-!
## Theorems
-/

/- ### C1 helper lemmas -/

/-- The reconciler ignores the precheck pediatric flag and passes the LLM2
pediatric flag and notes through, so inputs can be canonicalized. -/
theorem reconcile_normalize (pe : Bool) (pc : String) (plr : Bool)
    (plp : PolicyPrecheckValue) (per : Bool) (pep : PolicyPrecheckValue)
    (ppf : Bool) (ls : SuggestionValue) (le : Bool)
    (llo leo : PolicyAlignmentValue) (lpf : Bool) (ln : Option String) :
    reconcile_eda_policy ⟨pe, pc, plr, plp, per, pep, ppf⟩
      ⟨ls, ⟨le, llo, leo, lpf, ln⟩⟩ =
    { reconcile_eda_policy ⟨pe, pc, plr, plp, per, pep, false⟩
        ⟨ls, ⟨le, llo, leo, false, none⟩⟩ with
      policy_alignment :=
        { (reconcile_eda_policy ⟨pe, pc, plr, plp, per, pep, false⟩
            ⟨ls, ⟨le, llo, leo, false, none⟩⟩).policy_alignment with
          pediatric_flag := lpf, notes := ln } } := by
  rfl

/-- The reconciler depends on the indication category only through the
foreign_body test, so any other category can be canonicalized. -/
theorem reconcile_cat_bridge (pe : Bool) (pc : String) (plr : Bool)
    (plp : PolicyPrecheckValue) (per : Bool) (pep : PolicyPrecheckValue)
    (ppf : Bool) (l : Llm2SuggestionInput) (hcat : ¬ pc = "foreign_body") :
    reconcile_eda_policy ⟨pe, pc, plr, plp, per, pep, ppf⟩ l =
    reconcile_eda_policy ⟨pe, "x", plr, plp, per, pep, ppf⟩ l := by
  simp only [reconcile_eda_policy, hcat, if_false, String.reduceEq,
    Bool.false_eq_true, ite_false]

set_option maxHeartbeats 2000000 in
/-- Amended contract over the finite value space, foreign_body category. -/
theorem c1_core_foreign (pe plr : Bool) (plp : PolicyPrecheckValue)
    (per : Bool) (pep : PolicyPrecheckValue) (ls : SuggestionValue)
    (le : Bool) (llo leo : PolicyAlignmentValue) :
    c1_amended_statement ⟨pe, "foreign_body", plr, plp, per, pep, false⟩
      ⟨ls, ⟨le, llo, leo, false, none⟩⟩ := by
  revert pe plr plp per pep ls le llo leo
  simp only [c1_amended_statement]
  decide

set_option maxHeartbeats 2000000 in
/-- Amended contract over the finite value space, non-foreign_body category. -/
theorem c1_core_other (pe plr : Bool) (plp : PolicyPrecheckValue)
    (per : Bool) (pep : PolicyPrecheckValue) (ls : SuggestionValue)
    (le : Bool) (llo leo : PolicyAlignmentValue) :
    c1_amended_statement ⟨pe, "x", plr, plp, per, pep, false⟩
      ⟨ls, ⟨le, llo, leo, false, none⟩⟩ := by
  revert pe plr plp per pep ls le llo leo
  simp only [c1_amended_statement]
  decide

/- ### C1 claim theorems -/

/-- C1 (amended): reconcile_eda_policy applies rule 1 (excluded request
forces deny and excluded_request true) independently of the category
branch, then rule 2 (foreign_body forces labs_ok and ecg_ok to
not_required) else rule 3 (labs and ECG deny rules); it emits exactly one
contradiction for each governed field whose value actually changed,
carrying the previous and reconciled values, and pediatric_flag and notes
pass through unchanged. -/
theorem C1_policy_reconciler_amended (p : EdaPolicyPrecheckInput)
    (l : Llm2SuggestionInput) : c1_amended_statement p l := by
  obtain ⟨pe, pc, plr, plp, per, pep, ppf⟩ := p
  obtain ⟨ls, le, llo, leo, lpf, ln⟩ := l
  have hnorm := reconcile_normalize pe pc plr plp per pep ppf ls le llo leo lpf ln
  by_cases hcat : pc = "foreign_body"
  · subst hcat
    obtain ⟨h1, h2, h3, h4, h5, h6, h7, h8, h9, h10, h11⟩ :=
      c1_core_foreign pe plr plp per pep ls le llo leo
    refine ⟨?_, ?_, ?_, ?_, ?_, ?_, ?_, ?_, ?_, ?_, ?_⟩ <;>
      simp only [c1_amended_statement, hnorm] at * <;>
      first
        | exact h1 | exact h2 | exact h3 | exact h4 | rfl
        | exact h7 | exact h8 | exact h9 | exact h10 | exact h11
  · have hbr := reconcile_cat_bridge pe pc plr plp per pep ppf
      ⟨ls, ⟨le, llo, leo, lpf, ln⟩⟩ hcat
    have hnorm2 := reconcile_normalize pe "x" plr plp per pep ppf ls le llo leo lpf ln
    obtain ⟨h1, h2, h3, h4, h5, h6, h7, h8, h9, h10, h11⟩ :=
      c1_core_other pe plr plp per pep ls le llo leo
    refine ⟨?_, ?_, ?_, ?_, ?_, ?_, ?_, ?_, ?_, ?_, ?_⟩ <;>
      simp only [c1_amended_statement, hbr, hnorm2, hcat, if_false,
        String.reduceEq, ite_false] at * <;>
      first
        | exact h1 | exact h2 | exact h3 | exact h4 | rfl
        | exact h7 | exact h8 | exact h9 | exact h10 | exact h11

/-- C1 counterexample: on an excluded foreign_body request whose LLM2
alignment reports labs_ok = yes, the source still overwrites labs_ok to
not_required, while the else-if reading of the claim keeps labs_ok = yes;
so the claim as stated is false on the code. -/
theorem C1_policy_reconciler_counterexample :
    (reconcile_eda_policy c1_cx_precheck c1_cx_llm2).policy_alignment.labs_ok =
      PolicyAlignmentValue.not_required ∧
    (claimed_reconcile_eda_policy c1_cx_precheck
      c1_cx_llm2).policy_alignment.labs_ok = PolicyAlignmentValue.yes ∧
    PolicyAlignmentValue.not_required ≠ PolicyAlignmentValue.yes := by
  decide

/- ### C5 claim theorems -/

/-- C5: compute_retry_delay is deterministic, draws its base from
(30, 120, 300, 600, 1200) for attempts 1..5 repeating 1200 afterwards,
stays within ten percent of that base, and attempts 1 and 2 land in
[27, 33] and [108, 132] seconds. -/
theorem C5_backoff_delay :
    (∀ n : Int, 1 ≤ n →
      ∃ d, compute_retry_delay n = .ok d ∧
        9 * c5_base n ≤ 10 * d ∧ 10 * d ≤ 11 * c5_base n) ∧
    (∀ n m : Int, n = m → compute_retry_delay n = compute_retry_delay m) ∧
    (∃ d, compute_retry_delay 1 = .ok d ∧ 27 ≤ d ∧ d ≤ 33) ∧
    (∃ d, compute_retry_delay 2 = .ok d ∧ 108 ≤ d ∧ d ≤ 132) := by
  refine ⟨?_, ?_, ⟨31, rfl, by decide, by decide⟩, ⟨121, rfl, by decide, by decide⟩⟩
  · intro n h
    by_cases h5 : n ≤ 5
    · interval_cases n <;> exact ⟨_, rfl, by decide, by decide⟩
    · push_neg at h5
      have h6 : 6 ≤ n := by omega
      have hjlo : 0 ≤ n * 37 % 21 := Int.emod_nonneg _ (by norm_num)
      have hjhi : n * 37 % 21 < 21 := Int.emod_lt_of_pos _ (by norm_num)
      have hbase : c5_base n = 1200 := by
        simp only [c5_base]
        rw [if_neg (by omega)]
      have hc : compute_retry_delay n = .ok (12 * (100 + (n * 37 % 21 - 10))) := by
        simp only [compute_retry_delay]
        rw [if_neg (by omega : ¬ n < 1)]
        rw [show min (n - 1).toNat (_BASE_SECONDS.length - 1) = 4 from by
          simp only [_BASE_SECONDS, List.length_cons, List.length_nil]
          omega]
        rw [show _BASE_SECONDS.getD 4 0 = (1200 : Int) from rfl]
        congr 1
        rw [show (1200 : Int) * (100 + (n * 37 % 21 - 10)) =
            100 * (12 * (100 + (n * 37 % 21 - 10))) from by ring,
          Int.mul_ediv_cancel_left _ (by norm_num)]
        omega
      exact ⟨_, hc, by rw [hbase]; omega, by rw [hbase]; omega⟩
  · intro n m h
    rw [h]

/-- C5 witness: the general bound instantiated at attempt 7. -/
theorem C5_backoff_delay_witness :
    ∃ d, compute_retry_delay 7 = .ok d ∧
      9 * c5_base 7 ≤ 10 * d ∧ 10 * d ≤ 11 * c5_base 7 :=
  C5_backoff_delay.1 7 (by norm_num)

/- ### C6 claim theorems -/

/-- C6 counterexample: a last error containing record_extract is
categorized as extract (extract precedes record_extract in the candidate
tuple and is a substring of it), so the claimed record_extract cause never
arises; the full finalizer run on such a job carries cause extract. -/
theorem C6_failure_cause_counterexample :
    strContains "record_extract"
      (asciiLower "record_extract: no registration code found") = true ∧
    _categorize_failure c6_cx_job.last_error = "extract" ∧
    ("extract" : String) ≠ "record_extract" ∧
    (handle_max_retries c6_cx_job).enqueued =
      [{ job_type := "post_room1_final_failure", case_id := some 7
         payload :=
          [("cause", .s "extract"),
           ("details", .s "record_extract: no registration code found")] }] := by
  refine ⟨by decide, by decide, by decide, ?_⟩
  decide

/-- C6 (amended): when a case-owning job is dead-lettered the finalizer
sets the case to FAILED, writes the two audit events, and enqueues exactly
one post_room1_final_failure job whose details are the last error (or the
unknown-error placeholder) truncated to 300 characters and whose cause is
the first element of (download, extract, record_extract, llm1, llm2) found
as a substring of the lowercased last error, else other; since extract is
a substring of record_extract, the record_extract cause is unreachable. -/
theorem C6_failure_finalizer_amended (job : JobRecord) (cid : Nat)
    (h : job.case_id = some cid) :
    (handle_max_retries job).status_updates = [(cid, CaseStatus.FAILED)] ∧
    (handle_max_retries job).enqueued =
      [{ job_type := "post_room1_final_failure", case_id := some cid
         payload :=
          [("cause", PVal.s (c6_spec_cause job.last_error)),
           ("details", PVal.s (pyTake (lastErrorOrUnknown job.last_error) 300))] }] ∧
    (handle_max_retries job).audit_events.map (fun a => a.event_type) =
      ["CASE_FAILED_MAX_RETRIES", "JOB_ENQUEUED_POST_ROOM1_FAILURE"] := by
  have hcat : ∀ e : Option String, _categorize_failure e = c6_spec_cause e := by
    intro e
    cases e with
    | none => rfl
    | some s => simp [_categorize_failure, c6_spec_cause, firstCauseMatch]
  refine ⟨?_, ?_, ?_⟩ <;> simp [handle_max_retries, h, hcat]

/-- C6 witness: the finalizer contract instantiated on the concrete
record_extract job. -/
theorem C6_failure_finalizer_amended_witness :
    (handle_max_retries c6_cx_job).status_updates = [(7, CaseStatus.FAILED)] ∧
    (handle_max_retries c6_cx_job).enqueued =
      [{ job_type := "post_room1_final_failure", case_id := some 7
         payload :=
          [("cause", PVal.s (c6_spec_cause c6_cx_job.last_error)),
           ("details",
            PVal.s (pyTake (lastErrorOrUnknown c6_cx_job.last_error) 300))] }] ∧
    (handle_max_retries c6_cx_job).audit_events.map (fun a => a.event_type) =
      ["CASE_FAILED_MAX_RETRIES", "JOB_ENQUEUED_POST_ROOM1_FAILURE"] :=
  C6_failure_finalizer_amended c6_cx_job 7 rfl

/- ### C9 helper lemmas -/

/-- Unfolding lemma for verify_hmac_signature on a present signature. -/
theorem verify_some_eq (secret body : List Nat) (sig : List Char) :
    verify_hmac_signature secret body (some sig) =
      (if sig.isEmpty then false
       else compute_hmac_sha256 secret body == normalize_signature sig) := rfl

/-- Unfolding lemma for normalize_signature. -/
theorem normalize_signature_eq (sig : List Char) :
    normalize_signature sig =
      (if startsWithChars schemeChars (asciiLowerChars (pyStripChars sig)) then
        splitAfterFirstEq (asciiLowerChars (pyStripChars sig))
      else asciiLowerChars (pyStripChars sig)) := rfl

/-- A hex digit is drawn from the lowercase hex alphabet. -/
theorem hexDigit_mem (n : Nat) : hexDigit n ∈ hexTable := by
  unfold hexDigit
  have h : n % 16 < hexTable.length := by
    have : n % 16 < 16 := Nat.mod_lt _ (by norm_num)
    simpa [hexTable] using this
  rw [List.getD_eq_getElem _ _ h]
  exact List.getElem_mem h

/-- Every character of a hex rendering is in the hex alphabet. -/
theorem hexEncode_mem {bs : List Nat} {c : Char} (h : c ∈ hexEncode bs) :
    c ∈ hexTable := by
  induction bs with
  | nil => simp [hexEncode] at h
  | cons b rest ih =>
    simp only [hexEncode, List.mem_cons] at h
    rcases h with h | h | h
    · exact h ▸ hexDigit_mem _
    · exact h ▸ hexDigit_mem _
    · exact ih h

/-- Character-level facts about the hex alphabet. -/
theorem hexTable_char_props {c : Char} (h : c ∈ hexTable) :
    isPySpace c = false ∧ asciiLowerChar c = c ∧ c ≠ 's' ∧ c ≠ 'g' := by
  fin_cases h <;> decide

/-- dropWhile is the identity when no element satisfies the predicate. -/
theorem dropWhile_of_forall_false {p : Char → Bool} :
    ∀ {l : List Char}, (∀ x ∈ l, p x = false) → l.dropWhile p = l
  | [], _ => rfl
  | c :: cs, h => by
    simp [List.dropWhile, h c (by simp)]

/-- map is the identity when the function fixes every element. -/
theorem map_of_forall_eq {α : Type} {f : α → α} :
    ∀ {l : List α}, (∀ x ∈ l, f x = x) → l.map f = l
  | [], _ => rfl
  | c :: cs, h => by
    simp only [List.map_cons, h c (by simp)]
    rw [map_of_forall_eq (fun x hx => h x (by simp [hx]))]

/-- asciiLowerChars is the identity when it fixes every element. -/
theorem asciiLowerChars_of_forall_eq {l : List Char}
    (h : ∀ x ∈ l, asciiLowerChar x = x) : asciiLowerChars l = l :=
  map_of_forall_eq h

/-- Stripping is the identity on a list with no whitespace characters. -/
theorem pyStripChars_of_no_space {l : List Char}
    (h : ∀ x ∈ l, isPySpace x = false) : pyStripChars l = l := by
  unfold pyStripChars
  rw [dropWhile_of_forall_false h]
  rw [dropWhile_of_forall_false (fun x hx => h x (List.mem_reverse.mp hx))]
  exact List.reverse_reverse l

/-- A prefix test succeeds on the pattern followed by anything. -/
theorem startsWithChars_append_self :
    ∀ (l m : List Char), startsWithChars l (l ++ m) = true
  | [], _ => rfl
  | c :: cs, m => by
    simp [startsWithChars, startsWithChars_append_self cs m]

/-- The hex digest starts with two hex digits and contains only hex
characters. -/
theorem compute_hmac_shape (secret body : List Nat) :
    (∃ x y t, compute_hmac_sha256 secret body =
      hexDigit x :: hexDigit y :: t) ∧
    ∀ c ∈ compute_hmac_sha256 secret body, c ∈ hexTable := by
  constructor
  · exact ⟨_, _, _, rfl⟩
  · intro c hc
    exact hexEncode_mem hc

/-- Normalization fixes any all-hex character list. -/
theorem normalize_signature_of_hex {l : List Char}
    (hmem : ∀ c ∈ l, c ∈ hexTable) : normalize_signature l = l := by
  rw [normalize_signature_eq]
  have hstrip : pyStripChars l = l :=
    pyStripChars_of_no_space (fun a ha => (hexTable_char_props (hmem a ha)).1)
  rw [hstrip,
    asciiLowerChars_of_forall_eq
      (fun a ha => (hexTable_char_props (hmem a ha)).2.1)]
  cases l with
  | nil => rfl
  | cons c0 rest =>
    have hs : ('s' == c0) = false := by
      have := (hexTable_char_props (hmem c0 (by simp))).2.2.1
      simp only [beq_eq_false_iff_ne]
      exact fun hcontra => this hcontra.symm
    simp [startsWithChars, schemeChars, hs]

/- ### C9 claim theorem -/

/-- C9: verifying the computed digest succeeds, also with the sha256=
scheme prefix, and any single-byte mutation of the normalized signature is
rejected. -/
theorem C9_hmac_round_trip :
    (∀ secret body : List Nat,
      verify_hmac_signature secret body
        (some (compute_hmac_sha256 secret body)) = true) ∧
    (∀ secret body : List Nat,
      verify_hmac_signature secret body
        (some (schemeChars ++ compute_hmac_sha256 secret body)) = true) ∧
    (∀ (secret body : List Nat) (sig : List Char),
      one_byte_off (normalize_signature sig) (compute_hmac_sha256 secret body) →
      verify_hmac_signature secret body (some sig) = false) := by
  refine ⟨?_, ?_, ?_⟩
  · intro secret body
    obtain ⟨⟨x, y, t, hshape⟩, hmem⟩ := compute_hmac_shape secret body
    rw [verify_some_eq, normalize_signature_of_hex hmem, hshape]
    simp
  · intro secret body
    obtain ⟨⟨x, y, t, hshape⟩, hmem⟩ := compute_hmac_shape secret body
    have hall : ∀ c ∈ schemeChars ++ compute_hmac_sha256 secret body,
        isPySpace c = false ∧ asciiLowerChar c = c := by
      intro c hc
      rcases List.mem_append.mp hc with h | h
      · fin_cases h <;> exact ⟨by decide, by decide⟩
      · exact ⟨(hexTable_char_props (hmem c h)).1,
          (hexTable_char_props (hmem c h)).2.1⟩
    have hnorm : normalize_signature
        (schemeChars ++ compute_hmac_sha256 secret body) =
        compute_hmac_sha256 secret body := by
      rw [normalize_signature_eq,
        pyStripChars_of_no_space (fun a ha => (hall a ha).1),
        asciiLowerChars_of_forall_eq (fun a ha => (hall a ha).2),
        startsWithChars_append_self]
      simp only [if_true, splitAfterFirstEq, schemeChars]
      simp [List.dropWhile]
    rw [verify_some_eq, hnorm, hshape]
    simp
  · intro secret body sig hoff
    obtain ⟨hlen, i, hi, hne, _⟩ := hoff
    rw [verify_some_eq]
    rcases hemp : sig.isEmpty with _ | _
    · have hneq : compute_hmac_sha256 secret body ≠ normalize_signature sig := by
        intro heq
        exact hne (by rw [heq])
      simp only [hemp, Bool.false_eq_true, if_false]
      simpa [beq_eq_false_iff_ne] using hneq
    · simp [hemp]

/-- C9 witness: the single-byte rejection at the empty secret and body,
mutating the first digest character to the non-hex letter g. -/
theorem C9_hmac_round_trip_witness :
    verify_hmac_signature [] []
      (some ((compute_hmac_sha256 [] []).set 0 'g')) = false := by
  obtain ⟨⟨x, y, t, hshape⟩, hmem⟩ := compute_hmac_shape [] []
  refine C9_hmac_round_trip.2.2 [] [] _ ?_
  have hset : (compute_hmac_sha256 [] []).set 0 'g' =
      'g' :: hexDigit y :: t := by
    rw [hshape]
    rfl
  have hmemset : ∀ c ∈ 'g' :: hexDigit y :: t,
      isPySpace c = false ∧ asciiLowerChar c = c := by
    intro c hc
    rcases List.mem_cons.mp hc with h | h
    · subst h
      exact ⟨by decide, by decide⟩
    · have hcd : c ∈ compute_hmac_sha256 [] [] := by
        rw [hshape]
        exact List.mem_cons_of_mem _ h
      exact ⟨(hexTable_char_props (hmem c hcd)).1,
        (hexTable_char_props (hmem c hcd)).2.1⟩
  have hnorm : normalize_signature ((compute_hmac_sha256 [] []).set 0 'g') =
      'g' :: hexDigit y :: t := by
    rw [hset, normalize_signature_eq,
      pyStripChars_of_no_space (fun a ha => (hmemset a ha).1),
      asciiLowerChars_of_forall_eq (fun a ha => (hmemset a ha).2)]
    simp [startsWithChars, schemeChars]
  rw [hnorm, hshape]
  refine ⟨rfl, 0, by simp, ?_, ?_⟩
  · have hg := (hexTable_char_props (hexDigit_mem x)).2.2.2
    simpa [List.getD] using fun hcontra => hg hcontra.symm
  · intro j hj hj0
    match j, hj0 with
    | j + 1, _ => simp [List.getD]

/- ### C4 helper lemmas -/

/-- Unfolding lemma for resolve_previous_summary_window. -/
theorem resolve_window_eq (run_at_utc tz_offset : Int)
    (morning_hour evening_hour : Nat) :
    resolve_previous_summary_window run_at_utc tz_offset morning_hour
      evening_hour =
    (match ((c4_candidates run_at_utc tz_offset morning_hour
        evening_hour).filter
          (fun c => decide (c ≤ run_at_utc + tz_offset))).max? with
     | none => .error "unable to resolve previous summary cutoff"
     | some window_end_local =>
       .ok ⟨window_end_local - 43200, window_end_local,
         window_end_local - 43200 - tz_offset,
         window_end_local - tz_offset⟩) := rfl

/-- Antisymmetry instance used by the core max? characterization. -/
instance : Std.Antisymm ((· : Int) ≤ ·) :=
  ⟨fun h1 h2 => Int.le_antisymm h1 h2⟩

/-- max? on integer lists characterized as the greatest member. -/
theorem int_max?_eq_some_iff {xs : List Int} {a : Int} :
    xs.max? = some a ↔ a ∈ xs ∧ ∀ b ∈ xs, b ≤ a :=
  List.max?_eq_some_iff Int.le_refl max_choice (fun _ _ _ => max_le_iff)

/- ### C4 claim theorem -/

/-- C4: for every run instant (in a fixed-offset timezone model), the
resolved window end is the greatest candidate cutoff (morning or evening,
previous or current local day) that is at most the local run instant, the
window is the 12 hours before it, and the UTC fields subtract the offset;
concretely, at 2026-02-16T22:00:00Z with America/Bahia (UTC-3), 7 and 19,
the UTC window is 10:00Z to 22:00Z that day. -/
theorem C4_summary_window :
    (∀ (run tz : Int) (mh eh : Nat), mh ≤ 23 → eh ≤ 23 →
      ∃ w, resolve_previous_summary_window run tz mh eh = .ok w ∧
        w.window_end_local ∈ c4_candidates run tz mh eh ∧
        w.window_end_local ≤ run + tz ∧
        (∀ c ∈ c4_candidates run tz mh eh, c ≤ run + tz →
          c ≤ w.window_end_local) ∧
        w.window_start_local = w.window_end_local - 43200 ∧
        w.window_start_utc = w.window_end_local - 43200 - tz ∧
        w.window_end_utc = w.window_end_local - tz) ∧
    resolve_previous_summary_window 1771279200 (-10800) 7 19 =
      .ok ⟨1771225200, 1771268400, 1771236000, 1771279200⟩ := by
  constructor
  · intro run tz mh eh hmh heh
    have hfloor : localDay (run + tz) * 86400 ≤ run + tz := by
      unfold localDay
      rw [Int.fdiv_eq_ediv _ (by norm_num)]
      omega
    have hin : (localDay (run + tz) - 1) * 86400 + mh * 3600 ∈
        (c4_candidates run tz mh eh).filter
          (fun c => decide (c ≤ run + tz)) := by
      rw [List.mem_filter]
      refine ⟨by simp [c4_candidates], ?_⟩
      rw [decide_eq_true_iff]
      have : (mh : Int) * 3600 ≤ 82800 := by
        have : (mh : Int) ≤ 23 := by exact_mod_cast hmh
        nlinarith
      omega
    rcases hmax : ((c4_candidates run tz mh eh).filter
        (fun c => decide (c ≤ run + tz))).max? with _ | m
    · rw [List.max?_eq_none_iff] at hmax
      rw [hmax] at hin
      simp at hin
    · obtain ⟨hmem, hbig⟩ := int_max?_eq_some_iff.mp hmax
      rw [List.mem_filter, decide_eq_true_iff] at hmem
      refine ⟨_, by rw [resolve_window_eq, hmax], hmem.1, hmem.2, ?_,
        rfl, rfl, rfl⟩
      intro c hc hcle
      exact hbig c (by rw [List.mem_filter, decide_eq_true_iff]; exact ⟨hc, hcle⟩)
  · rfl

/-- C4 witness: the general window characterization at the concrete
2026-02-16T22:00:00Z run with the default configuration. -/
theorem C4_summary_window_witness :
    ∃ w, resolve_previous_summary_window 1771279200 (-10800) 7 19 = .ok w ∧
      w.window_end_local ∈ c4_candidates 1771279200 (-10800) 7 19 ∧
      w.window_end_local ≤ 1771279200 + (-10800) ∧
      (∀ c ∈ c4_candidates 1771279200 (-10800) 7 19,
        c ≤ 1771279200 + (-10800) → c ≤ w.window_end_local) ∧
      w.window_start_local = w.window_end_local - 43200 ∧
      w.window_start_utc = w.window_end_local - 43200 - (-10800) ∧
      w.window_end_utc = w.window_end_local - (-10800) :=
  C4_summary_window.1 1771279200 (-10800) 7 19 (by norm_num) (by norm_num)

/- ### C3 claim theorems -/

/-- C3: two scheduler runs for the same window leave exactly one dispatch
row for the window key and add exactly one queued post_room4_summary job:
the first run claims (inserting a pending row) and enqueues, the second
collides and the failed-to-pending reclaim does not fire on the pending
row, so nothing more is enqueued. -/
theorem C3_summary_idempotency (room4 tzname : String) (tz : Int)
    (mh eh : Nat) (run : Int) (st0 : SchedulerState)
    (w : SupervisorSummaryWindow)
    (hw : resolve_previous_summary_window run tz mh eh = .ok w)
    (hnone : countDispatchRows st0.dispatches
      ⟨room4, w.window_start_utc, w.window_end_utc⟩ = 0) :
    ∃ r1 st1 r2 st2,
      enqueue_previous_window_summary room4 tzname tz mh eh run st0 =
        .ok (r1, st1) ∧
      enqueue_previous_window_summary room4 tzname tz mh eh run st1 =
        .ok (r2, st2) ∧
      r1.claimed_dispatch = true ∧ r2.claimed_dispatch = false ∧
      countDispatchRows st2.dispatches
        ⟨room4, w.window_start_utc, w.window_end_utc⟩ = 1 ∧
      countSummaryJobs st2.jobs (c3_payload room4 tzname w) =
        countSummaryJobs st0.jobs (c3_payload room4 tzname w) + 1 := by
  set k : SupervisorSummaryWindowKey :=
    ⟨room4, w.window_start_utc, w.window_end_utc⟩ with hk
  have hnomatch : ∀ r ∈ st0.dispatches, rowMatchesKey r k = false := by
    intro r hr
    have hfil : st0.dispatches.filter (fun r => rowMatchesKey r k) = [] :=
      List.length_eq_zero.mp hnone
    have := List.filter_eq_nil_iff.mp hfil r hr
    simpa using this
  have hany0 : st0.dispatches.any (fun r => rowMatchesKey r k) = false := by
    rw [List.any_eq_false]
    intro r hr
    simp [hnomatch r hr]
  set newRow : DispatchRow :=
    ⟨k.room_id, k.window_start, k.window_end, "pending"⟩ with hnr
  have hclaim0 : claim_window k st0.dispatches =
      (true, st0.dispatches ++ [newRow]) := by
    simp [claim_window, hany0]
  set rows1 := st0.dispatches ++ [newRow] with hrows1
  set job0 : JobRecord :=
    { job_id := st0.jobs.length, case_id := none
      job_type := "post_room4_summary", status := "queued"
      run_after := 0, attempts := 0, max_attempts := 5, last_error := none
      payload := c3_payload room4 tzname w } with hj0
  have hrun1 : enqueue_previous_window_summary room4 tzname tz mh eh run st0 =
      .ok (⟨true, some st0.jobs.length⟩, ⟨rows1, st0.jobs ++ [job0]⟩) := by
    simp only [enqueue_previous_window_summary, hw, hclaim0, jobs_enqueue]
    simp [hj0]
  have hmatch_new : rowMatchesKey newRow k = true := by
    simp [rowMatchesKey, hnr]
  have hany1 : rows1.any (fun r => rowMatchesKey r k) = true := by
    rw [List.any_eq_true]
    exact ⟨newRow, by simp [hrows1], hmatch_new⟩
  have hnofail : ∀ r ∈ rows1,
      (rowMatchesKey r k && r.status == "failed") = false := by
    intro r hr
    rcases List.mem_append.mp hr with h | h
    · simp [hnomatch r h]
    · rcases List.mem_singleton.mp h with rfl
      simp [hnr]
  have hfe : rows1.filter
      (fun r => rowMatchesKey r k && r.status == "failed") = [] :=
    List.filter_eq_nil_iff.mpr (by
      intro r hr
      simp [hnofail r hr])
  have hmap : rows1.map (fun r =>
      if rowMatchesKey r k && r.status == "failed" then
        { r with status := "pending" }
      else r) = rows1 :=
    map_of_forall_eq (fun r hr => by simp [hnofail r hr])
  have hclaim1 : claim_window k rows1 = (false, rows1) := by
    simp only [claim_window, hany1, if_true, hfe, hmap]
    rfl
  have hrun2 : enqueue_previous_window_summary room4 tzname tz mh eh run
      ⟨rows1, st0.jobs ++ [job0]⟩ =
      .ok (⟨false, none⟩, ⟨rows1, st0.jobs ++ [job0]⟩) := by
    simp only [enqueue_previous_window_summary, hw, hclaim1]
    simp
  refine ⟨_, _, _, _, hrun1, hrun2, rfl, rfl, ?_, ?_⟩
  · unfold countDispatchRows
    rw [List.filter_append]
    have h0 : st0.dispatches.filter (fun r => rowMatchesKey r k) = [] :=
      List.length_eq_zero.mp hnone
    rw [h0]
    simp [hmatch_new]
  · unfold countSummaryJobs
    rw [List.filter_append]
    simp [hj0]

/-- C3 witness: the double-run contract at the concrete default window on
an empty database state. -/
theorem C3_summary_idempotency_witness :
    ∃ r1 st1 r2 st2,
      enqueue_previous_window_summary "!room4" "America/Bahia" (-10800) 7 19
        1771279200 ⟨[], []⟩ = .ok (r1, st1) ∧
      enqueue_previous_window_summary "!room4" "America/Bahia" (-10800) 7 19
        1771279200 st1 = .ok (r2, st2) ∧
      r1.claimed_dispatch = true ∧ r2.claimed_dispatch = false ∧
      countDispatchRows st2.dispatches ⟨"!room4", 1771236000, 1771279200⟩ = 1 ∧
      countSummaryJobs st2.jobs (c3_payload "!room4" "America/Bahia"
        ⟨1771225200, 1771268400, 1771236000, 1771279200⟩) =
        countSummaryJobs ([] : List JobRecord) (c3_payload "!room4"
          "America/Bahia" ⟨1771225200, 1771268400, 1771236000, 1771279200⟩) + 1 :=
  C3_summary_idempotency "!room4" "America/Bahia" (-10800) 7 19 1771279200
    ⟨[], []⟩ ⟨1771225200, 1771268400, 1771236000, 1771279200⟩ rfl rfl

/- ### C7 helper lemmas -/

/-- Activity over an appended queue splits disjunctively. -/
theorem has_active_job_append (q l : List JobRecord) (cid : Nat)
    (jt : String) :
    has_active_job (q ++ l) cid jt =
      (has_active_job q cid jt || has_active_job l cid jt) := by
  simp [has_active_job, List.any_append]

/-- Activity of a one-element queue. -/
theorem has_active_job_single (j : JobRecord) (cid : Nat) (jt : String) :
    has_active_job [j] cid jt =
      (j.case_id == some cid && j.job_type == jt &&
        (j.status == "queued" || j.status == "running")) := by
  simp [has_active_job]

/- ### C7 claim theorem -/

/-- C7: the source continuation mapping equals the claimed table, and one
recovery scan appends exactly the continuation jobs of the snapshots whose
(case_id, job_type) had no active job when processed: each appended job is
queued with the source payload and traced to a snapshot by the mapping,
none was active in the initial queue, no two appended jobs share a
(case_id, job_type) pair, one RECOVERY_JOB_ENQUEUED audit event is written
per enqueued job, and every snapshot whose mapped job was inactive in the
initial queue has its job present afterwards. -/
theorem C7_recovery_enqueues :
    (∀ snapshot, _resolve_recovery_job snapshot =
      c7_spec_continuation snapshot) ∧
    (∀ (snaps : List CaseRecoverySnapshot) (q0 : List JobRecord),
      ∃ newJobs,
        (recover snaps q0).1 = q0 ++ newJobs ∧
        (recover snaps q0).2.2 = newJobs.length ∧
        (recover snaps q0).2.1.length = newJobs.length ∧
        (∀ a ∈ (recover snaps q0).2.1,
          a.event_type = "RECOVERY_JOB_ENQUEUED") ∧
        (∀ j ∈ newJobs, j.status = "queued" ∧
          j.payload = recovery_payload j.job_type ∧
          ∃ snap ∈ snaps, _resolve_recovery_job snap = some j.job_type ∧
            j.case_id = some snap.case_id) ∧
        (∀ j ∈ newJobs, ∀ cid, j.case_id = some cid →
          has_active_job q0 cid j.job_type = false) ∧
        List.Pairwise (fun j1 j2 =>
          ¬(j1.case_id = j2.case_id ∧ j1.job_type = j2.job_type)) newJobs ∧
        (∀ snap ∈ snaps, ∀ jt, _resolve_recovery_job snap = some jt →
          has_active_job q0 snap.case_id jt = false →
          ∃ j ∈ newJobs, j.case_id = some snap.case_id ∧
            j.job_type = jt)) := by
  constructor
  · intro snapshot
    obtain ⟨cid, st, trig, comp⟩ := snapshot
    cases st <;> cases trig <;> cases comp <;>
      simp [_resolve_recovery_job, c7_spec_continuation]
  · intro snaps
    induction snaps with
    | nil =>
      intro q0
      exact ⟨[], by simp [recover], by simp [recover], by simp [recover],
        by simp [recover], by simp, by simp, by simp, by simp⟩
    | cons snap rest ih =>
      intro q0
      rcases hres : _resolve_recovery_job snap with _ | jt
      · obtain ⟨nj, h1, h2, h3, h4, h5, h6, h7, h8⟩ := ih q0
        refine ⟨nj, ?_, ?_, ?_, ?_, ?_, h6, h7, ?_⟩
        · simpa [recover, hres] using h1
        · simpa [recover, hres] using h2
        · simpa [recover, hres] using h3
        · simpa [recover, hres] using h4
        · intro j hj
          obtain ⟨hq, hp, s, hs, hrs, hcs⟩ := h5 j hj
          exact ⟨hq, hp, s, List.mem_cons_of_mem _ hs, hrs, hcs⟩
        · intro s hs jt' hrs hact
          rcases List.mem_cons.mp hs with rfl | hs
          · rw [hres] at hrs
            exact absurd hrs (by simp)
          · exact h8 s hs jt' hrs hact
      · rcases hact : has_active_job q0 snap.case_id jt with _ | _
        · -- queue inactive: the job is enqueued
          set nj0 : JobRecord :=
            { job_id := q0.length, case_id := some snap.case_id
              job_type := jt, status := "queued"
              run_after := 0, attempts := 0, max_attempts := 5
              last_error := none, payload := recovery_payload jt } with hnj0
          have henq : jobs_enqueue q0
              { job_type := jt, case_id := some snap.case_id
                payload := recovery_payload jt } = (nj0, q0 ++ [nj0]) := by
            simp [jobs_enqueue, hnj0]
          have hactive1 : has_active_job (q0 ++ [nj0]) snap.case_id jt = true := by
            rw [has_active_job_append, has_active_job_single]
            simp [hnj0]
          obtain ⟨nj, h1, h2, h3, h4, h5, h6, h7, h8⟩ := ih (q0 ++ [nj0])
          have hrec : recover (snap :: rest) q0 =
              ((recover rest (q0 ++ [nj0])).1,
               ({ case_id := snap.case_id, actor_type := "system"
                  event_type := "RECOVERY_JOB_ENQUEUED"
                  payload := [("status", .s snap.status.value),
                              ("job_type", .s jt)] }
                  : AuditEventCreateInput) ::
                 (recover rest (q0 ++ [nj0])).2.1,
               (recover rest (q0 ++ [nj0])).2.2 + 1) := by
            simp [recover, hres, hact, henq]
          refine ⟨nj0 :: nj, ?_, ?_, ?_, ?_, ?_, ?_, ?_, ?_⟩
          · rw [hrec]
            simp only [h1, List.append_assoc, List.singleton_append]
          · rw [hrec]
            simp [h2]
          · rw [hrec]
            simp [h3]
          · rw [hrec]
            intro a ha
            rcases List.mem_cons.mp ha with rfl | ha
            · rfl
            · exact h4 a ha
          · intro j hj
            rcases List.mem_cons.mp hj with rfl | hj
            · exact ⟨rfl, rfl, snap, List.mem_cons_self _ _, by rw [hres], rfl⟩
            · obtain ⟨hq, hp, s, hs, hrs, hcs⟩ := h5 j hj
              exact ⟨hq, hp, s, List.mem_cons_of_mem _ hs, hrs, hcs⟩
          · intro j hj cid hcid
            rcases List.mem_cons.mp hj with rfl | hj
            · rw [hnj0] at hcid
              simp only at hcid
              cases hcid
              exact hact
            · have := h6 j hj cid hcid
              rw [has_active_job_append] at this
              exact (Bool.or_eq_false_iff.mp this).1
          · constructor
            · intro j' hj' hpair
              obtain ⟨hcase, htype⟩ := hpair
              have hact' := h6 j' hj' snap.case_id (by rw [← hcase])
              rw [← htype] at hact'
              rw [show has_active_job (q0 ++ [nj0]) snap.case_id
                  nj0.job_type =
                  has_active_job (q0 ++ [nj0]) snap.case_id jt from rfl,
                hactive1] at hact'
              simp at hact'
            · exact h7
          · intro s hs jt' hrs hact'
            rcases List.mem_cons.mp hs with rfl | hs
            · rw [hres] at hrs
              cases hrs
              exact ⟨nj0, List.mem_cons_self _ _, rfl, rfl⟩
            · by_cases hsame : s.case_id = snap.case_id ∧ jt' = jt
              · refine ⟨nj0, List.mem_cons_self _ _, ?_, hsame.2.symm⟩
                rw [hsame.1]
              · have hact1 : has_active_job (q0 ++ [nj0]) s.case_id jt' = false := by
                  rw [has_active_job_append, hact', has_active_job_single]
                  simp only [Bool.false_or, hnj0]
                  by_cases hc : s.case_id = snap.case_id
                  · have ht : ¬ jt = jt' := fun h => hsame ⟨hc, h.symm⟩
                    simp [hc, ht]
                  · simp [Ne.symm hc, hc]
                obtain ⟨j, hjm, hjc, hjt⟩ := h8 s hs jt' hrs hact1
                exact ⟨j, List.mem_cons_of_mem _ hjm, hjc, hjt⟩
        · -- already active: skipped
          obtain ⟨nj, h1, h2, h3, h4, h5, h6, h7, h8⟩ := ih q0
          refine ⟨nj, ?_, ?_, ?_, ?_, ?_, h6, h7, ?_⟩
          · simpa [recover, hres, hact] using h1
          · simpa [recover, hres, hact] using h2
          · simpa [recover, hres, hact] using h3
          · simpa [recover, hres, hact] using h4
          · intro j hj
            obtain ⟨hq, hp, s, hs, hrs, hcs⟩ := h5 j hj
            exact ⟨hq, hp, s, List.mem_cons_of_mem _ hs, hrs, hcs⟩
          · intro s hs jt' hrs hact'
            rcases List.mem_cons.mp hs with rfl | hs
            · rw [hres] at hrs
              cases hrs
              rw [hact'] at hact
              exact absurd hact (by simp)
            · exact h8 s hs jt' hrs hact'

/-- C7 witness: recovering a single FAILED case on an empty queue enqueues
its final-failure continuation job. -/
theorem C7_recovery_enqueues_witness :
    ∃ j ∈ (recover [⟨1, CaseStatus.FAILED, none, none⟩] []).1,
      j.case_id = some 1 ∧ j.job_type = "post_room1_final_failure" := by
  obtain ⟨nj, h1, _, _, _, _, _, _, h8⟩ :=
    C7_recovery_enqueues.2 [⟨1, CaseStatus.FAILED, none, none⟩] []
  obtain ⟨j, hm, hc, ht⟩ := h8 ⟨1, CaseStatus.FAILED, none, none⟩ (by simp)
    "post_room1_final_failure" (by rfl) (by rfl)
  refine ⟨j, ?_, hc, ht⟩
  rw [h1]
  simpa using hm

/- ### C10 helper lemmas -/

/-- A predicate that never holds on two distinct positions of a list is
counted at most once. -/
theorem countP_le_one_of_pairwise {α : Type} (p : α → Bool) :
    ∀ {l : List α},
      List.Pairwise (fun a b => ¬(p a = true ∧ p b = true)) l →
      l.countP p ≤ 1
  | [], _ => by simp
  | a :: l, h => by
    obtain ⟨hhead, htail⟩ := List.pairwise_cons.mp h
    rcases hpa : p a with _ | _
    · rw [List.countP_cons_of_neg _ _ (by simp [hpa])]
      exact countP_le_one_of_pairwise p htail
    · rw [List.countP_cons_of_pos _ _ hpa]
      have hz : l.countP p = 0 := by
        rw [List.countP_eq_zero]
        intro b hb hpb
        exact hhead b hb ⟨hpa, hpb⟩
      omega

/-- Counting after a map is counting the transported predicate. -/
theorem countP_map_congr {α β : Type} (f : α → β) (p : β → Bool)
    (q : α → Bool) :
    ∀ {l : List α}, (∀ a ∈ l, p (f a) = q a) →
      (l.map f).countP p = l.countP q
  | [], _ => rfl
  | a :: l, h => by
    have ih := countP_map_congr f p q
      (fun x hx => h x (List.mem_cons_of_mem a hx))
    simp only [List.map_cons, List.countP_cons, h a (List.mem_cons_self a l),
      ih]

/- ### C10 claim theorem -/

/-- C10: activation and creation preserve the at-most-one-active-per-name
invariant; creation only appends inactive rows; activation leaves the
target row active and every other row of the name inactive (within one
atomic transaction, modelled as one function application). -/
theorem C10_prompt_active_invariant :
    (∀ (rows : List PromptRow) (name : String) (version : Nat) (n : String),
      prompt_keys_unique rows → at_most_one_active rows n →
      at_most_one_active (activate_prompt_version rows name version) n) ∧
    (∀ (rows : List PromptRow) (name : String) (source_version : Nat)
      (content : String) (n : String),
      at_most_one_active rows n →
      at_most_one_active
        (create_prompt_version rows name source_version content) n) ∧
    (∀ (rows : List PromptRow) (name : String) (source_version : Nat)
      (content : String),
      ∃ added, create_prompt_version rows name source_version content =
        rows ++ added ∧ ∀ r ∈ added, r.is_active = false) ∧
    (∀ (rows : List PromptRow) (name : String) (version : Nat),
      rows.any (fun r => r.name == name && r.version == version) = true →
      ∀ r ∈ activate_prompt_version rows name version,
        (r.name = name ∧ r.version = version → r.is_active = true) ∧
        (r.name = name ∧ r.version ≠ version → r.is_active = false)) := by
  refine ⟨?_, ?_, ?_, ?_⟩
  · intro rows name version n huniq hinv
    unfold activate_prompt_version
    rcases hex : rows.any (fun r => r.name == name && r.version == version) with _ | _
    · exact hinv
    · unfold at_most_one_active
      rw [if_pos rfl, List.map_map]
      by_cases hn : n = name
      · subst hn
        have hpt : ∀ r ∈ rows,
            (fun r => r.name == n && r.is_active)
              ((fun r => if r.name == n && r.version == version then
                  { r with is_active := true } else r)
                ((fun r => if r.name == n && r.is_active then
                  { r with is_active := false } else r) r)) =
            (r.name == n && r.version == version) := by
          intro r _
          by_cases h1 : r.name = n
          · by_cases h2 : r.version = version <;>
              rcases ha : r.is_active with _ | _ <;> simp [h1, h2, ha]
          · simp [beq_eq_false_iff_ne.mpr h1]
        rw [countP_map_congr
          ((fun r => if r.name == n && r.version == version then
              { r with is_active := true } else r) ∘
           (fun r => if r.name == n && r.is_active then
              { r with is_active := false } else r))
          (fun r => r.name == n && r.is_active)
          (fun r => r.name == n && r.version == version)
          (fun r hr => hpt r hr)]
        have himp : List.Pairwise (fun r1 r2 =>
            ¬((r1.name == n && r1.version == version) = true ∧
              (r2.name == n && r2.version == version) = true)) rows := by
          refine List.Pairwise.imp ?_ huniq
          intro r1 r2 hk hab
          obtain ⟨ha, hb⟩ := hab
          simp only [Bool.and_eq_true, beq_iff_eq] at ha hb
          exact hk ⟨ha.1.trans hb.1.symm, ha.2.trans hb.2.symm⟩
        exact countP_le_one_of_pairwise _ himp
      · have hpt : ∀ r ∈ rows,
            (fun r => r.name == n && r.is_active)
              ((fun r => if r.name == name && r.version == version then
                  { r with is_active := true } else r)
                ((fun r => if r.name == name && r.is_active then
                  { r with is_active := false } else r) r)) =
            (r.name == n && r.is_active) := by
          intro r _
          have hne2 : ¬ name = n := fun h => hn h.symm
          by_cases h1 : r.name = name
          · have hne : ¬ r.name = n := by rw [h1]; exact fun h => hn h.symm
            by_cases h2 : r.version = version <;>
              rcases ha : r.is_active with _ | _ <;>
              simp [h1, h2, ha, hne, hne2]
          · simp [beq_eq_false_iff_ne.mpr h1]
        rw [countP_map_congr
          ((fun r => if r.name == name && r.version == version then
              { r with is_active := true } else r) ∘
           (fun r => if r.name == name && r.is_active then
              { r with is_active := false } else r))
          (fun r => r.name == n && r.is_active)
          (fun r => r.name == n && r.is_active)
          (fun r hr => hpt r hr)]
        exact hinv
  · intro rows name source_version content n hinv
    unfold create_prompt_version
    rcases hex : rows.any (fun r => r.name == name && r.version == source_version) with _ | _
    · exact hinv
    · unfold at_most_one_active at hinv ⊢
      rw [if_pos rfl, List.countP_append]
      simpa using hinv
  · intro rows name source_version content
    unfold create_prompt_version
    rcases hex : rows.any (fun r => r.name == name && r.version == source_version) with _ | _
    · exact ⟨[], by simp, by simp⟩
    · exact ⟨[⟨name, next_prompt_version rows name, content, false⟩],
        rfl, by simp⟩
  · intro rows name version hex r hr
    unfold activate_prompt_version at hr
    rw [hex] at hr
    simp only [if_true] at hr
    rw [List.mem_map] at hr
    obtain ⟨r1, hr1, hr1e⟩ := hr
    rw [List.mem_map] at hr1
    obtain ⟨r0, _, hr0e⟩ := hr1
    constructor
    · intro ⟨hname, hver⟩
      by_cases h1 : r1.name = name ∧ r1.version = version
      · rw [← hr1e]
        simp [h1.1, h1.2]
      · have : r1.name = r.name ∧ r1.version = r.version := by
          by_cases hc : r1.name = name && r1.version == version
          · rw [← hr1e]
            simp_all
          · rw [← hr1e]
            simp_all
        rw [this.1, this.2, hname, hver] at h1
        exact absurd ⟨rfl, rfl⟩ h1
    · intro ⟨hname, hver⟩
      have hkeep : ¬(r1.name = name ∧ r1.version = version) := by
        intro ⟨ha, hb⟩
        have : r = { r1 with is_active := true } := by
          rw [← hr1e]
          simp [ha, hb]
        rw [this] at hver
        simp only at hver
        exact hver hb
      have hre : r = r1 := by
        rw [← hr1e]
        by_cases ha : r1.name = name
        · have hb : ¬ r1.version = version := fun h => hkeep ⟨ha, h⟩
          simp [ha, hb]
        · simp [ha]
      subst hre
      by_cases h0a : r0.name = name ∧ r0.is_active = true
      · rw [← hr0e]
        simp [h0a.1, h0a.2]
      · have hr0 : r = r0 := by
          rw [← hr0e]
          by_cases hx : r0.name = name
          · have hy : r0.is_active = false := by
              rcases hz : r0.is_active with _ | _
              · rfl
              · exact absurd ⟨hx, hz⟩ h0a
            simp [hx, hy]
          · simp [hx]
        rw [hr0] at hname
        have : r0.is_active = false := by
          rcases hz : r0.is_active with _ | _
          · rfl
          · exact absurd ⟨hname, hz⟩ h0a
        rw [hr0]
        exact this

/-- C10 witness: activation on a concrete two-version table preserves the
invariant. -/
theorem C10_prompt_active_invariant_witness :
    at_most_one_active
      (activate_prompt_version
        [⟨"llm1_system", 1, "a", true⟩, ⟨"llm1_system", 2, "b", false⟩]
        "llm1_system" 2) "llm1_system" :=
  C10_prompt_active_invariant.1
    [⟨"llm1_system", 1, "a", true⟩, ⟨"llm1_system", 2, "b", false⟩]
    "llm1_system" 2 "llm1_system"
    (by unfold prompt_keys_unique; decide)
    (by unfold at_most_one_active; decide)

/- ### C8 helper lemmas -/

/-- A produced retry delay honors the 200 ms floor. -/
theorem retry_delay_ms_ge (sc : Option Int) (ms : Option Nat) (d : Nat)
    (h : _extract_retry_delay_ms sc ms = some d) : 200 ≤ d := by
  rcases sc with _ | c
  · rcases ms with _ | m
    · simp [_extract_retry_delay_ms] at h
    · simp [_extract_retry_delay_ms] at h
      omega
  · by_cases hc : c = 429
    · subst hc
      rcases ms with _ | m <;> simp [_extract_retry_delay_ms] at h <;> omega
    · simp [_extract_retry_delay_ms, hc] at h

/-- The retry loop makes at most the remaining number of calls and every
recorded sleep honors the 200 ms floor. -/
theorem redactGo_calls_le (adapter : Nat → RedactOutcome)
    (max_attempts : Nat) :
    ∀ (fuel attempt : Nat),
      (redactGo adapter max_attempts attempt fuel).2.2 ≤ fuel ∧
      ∀ d ∈ (redactGo adapter max_attempts attempt fuel).2.1, 200 ≤ d := by
  intro fuel
  induction fuel with
  | zero => intro attempt; exact ⟨Nat.le_refl _, by simp [redactGo]⟩
  | succ f ih =>
    intro attempt
    unfold redactGo
    split
    · exact ⟨by simp, by simp⟩
    rename_i sc ms heq
    split
    · exact ⟨by simp, by simp⟩
    rename_i delay hd
    split
    · exact ⟨by simp, by simp⟩
    rename_i hlt
    refine ⟨by simpa using Nat.add_le_add_right (ih (attempt + 1)).1 1, ?_⟩
    intro d hd2
    rcases List.mem_cons.mp hd2 with rfl | hd2
    · exact retry_delay_ms_ge sc ms _ hd
    · exact (ih (attempt + 1)).2 d hd2

/- ### C8 claim theorems -/

/-- C8 counterexample: an adapter that always raises 429 without any
retry_after_ms is not retriable under the claimed condition (429 carrying
retry_after_ms), yet the source retries it with the 200 ms floor up to the
5-attempt budget instead of failing fast after one call. -/
theorem C8_cleanup_retry_counterexample :
    c8_spec_retriable (some 429) none = true ∧
    ((some (429 : Int)).isSome && (none : Option Nat).isSome) = false ∧
    _redact_with_retry (fun _ => .err (some 429) none) 5 =
      (.error (some 429, none), [200, 200, 200, 200], 5) ∧
    (5 : Nat) ≠ 1 := by
  refine ⟨rfl, rfl, ?_, by decide⟩
  rfl

/-- Per-event totals of the cleanup pass: successes and failures add up to
the number of events, one audit event is written per event, and each is a
redaction success or failure record. -/
theorem cleanupGo_totals (case_id max_attempts : Nat) :
    ∀ events : List (String × String × (Nat → RedactOutcome)),
      (cleanupGo case_id max_attempts events).1 +
        (cleanupGo case_id max_attempts events).2.1 = events.length ∧
      (cleanupGo case_id max_attempts events).2.2.1.length = events.length ∧
      ∀ a ∈ (cleanupGo case_id max_attempts events).2.2.1,
        a.event_type = "MATRIX_EVENT_REDACTED" ∨
        a.event_type = "MATRIX_EVENT_REDACTION_FAILED"
  | [] => by simp [cleanupGo]
  | (room_id, event_id, adapter) :: rest => by
    obtain ⟨ht1, ht2, ht3⟩ := cleanupGo_totals case_id max_attempts rest
    unfold cleanupGo
    dsimp only
    rcases hr : (_redact_with_retry adapter max_attempts).1 with _ | e <;>
      simp only [hr]
    · refine ⟨by simpa using by omega, by simpa using ht2, ?_⟩
      intro a ha
      rcases List.mem_cons.mp ha with rfl | ha
      · exact Or.inr rfl
      · exact ht3 a ha
    · refine ⟨by simpa using by omega, by simpa using ht2, ?_⟩
      intro a ha
      rcases List.mem_cons.mp ha with rfl | ha
      · exact Or.inl rfl
      · exact ht3 a ha

/-- C8 (amended): a redaction error is retried exactly when it carries
status 429 (sleeping max of 200 ms and the extracted retry_after_ms,
defaulting to the 200 ms floor) or carries no status but an extractable
retry_after_ms; every other error fails fast after one call; each
redaction makes at most 5 adapter calls under the 5-attempt default; and
after processing every tracked event the case is always marked CLEANED
and a CLEANUP_COMPLETED audit event carries both counts. -/
theorem C8_cleanup_executor_amended :
    (∀ (sc : Option Int) (ms : Option Nat),
      (_extract_retry_delay_ms sc ms).isSome = c8_spec_retriable sc ms ∧
      ∀ d, _extract_retry_delay_ms sc ms = some d →
        d = max 200 (ms.getD 200)) ∧
    (∀ adapter : Nat → RedactOutcome,
      (_redact_with_retry adapter 5).2.2 ≤ 5 ∧
      ∀ d ∈ (_redact_with_retry adapter 5).2.1, 200 ≤ d) ∧
    (∀ (adapter : Nat → RedactOutcome) (maxA : Nat) (sc : Option Int)
      (ms : Option Nat), 1 ≤ maxA → adapter 1 = .err sc ms →
      _extract_retry_delay_ms sc ms = none →
      _redact_with_retry adapter maxA = (.error (sc, ms), [], 1)) ∧
    (∀ (adapter : Nat → RedactOutcome) (ms : Nat),
      adapter 1 = .err (some 429) (some ms) →
      ∃ rest, (_redact_with_retry adapter 5).2.1 = max 200 ms :: rest) ∧
    (∀ (case_id maxA : Nat)
      (events : List (String × String × (Nat → RedactOutcome))),
      (execute_cleanup case_id maxA events).result.redacted_success +
        (execute_cleanup case_id maxA events).result.redacted_failed =
        events.length ∧
      (execute_cleanup case_id maxA events).status_updates =
        [(case_id, CaseStatus.CLEANED)] ∧
      ∃ evAudits,
        (execute_cleanup case_id maxA events).audit_events = evAudits ++
          [{ case_id := case_id, actor_type := "system"
             event_type := "CLEANUP_COMPLETED"
             payload := [("count_redacted_success",
               .n (execute_cleanup case_id maxA events).result.redacted_success),
              ("count_redacted_failed",
               .n (execute_cleanup case_id maxA events).result.redacted_failed)] }] ∧
        evAudits.length = events.length ∧
        ∀ a ∈ evAudits, a.event_type = "MATRIX_EVENT_REDACTED" ∨
          a.event_type = "MATRIX_EVENT_REDACTION_FAILED") := by
  refine ⟨?_, ?_, ?_, ?_, ?_⟩
  · intro sc ms
    constructor
    · rcases sc with _ | c
      · rcases ms with _ | m <;> simp [_extract_retry_delay_ms, c8_spec_retriable]
      · by_cases hc : c = 429
        · subst hc
          rcases ms with _ | m <;>
            simp [_extract_retry_delay_ms, c8_spec_retriable]
        · rcases ms with _ | m <;>
            simp [_extract_retry_delay_ms, c8_spec_retriable, hc]
    · intro d h
      rcases sc with _ | c
      · rcases ms with _ | m
        · simp [_extract_retry_delay_ms] at h
        · simp [_extract_retry_delay_ms] at h
          simp [← h]
      · by_cases hc : c = 429
        · subst hc
          rcases ms with _ | m <;> simp [_extract_retry_delay_ms] at h <;>
            simp [← h]
        · simp [_extract_retry_delay_ms, hc] at h
  · intro adapter
    exact redactGo_calls_le adapter 5 5 1
  · intro adapter maxA sc ms hmax hada hnone
    obtain ⟨m, rfl⟩ : ∃ m, maxA = m + 1 := ⟨maxA - 1, by omega⟩
    unfold _redact_with_retry
    unfold redactGo
    simp only [hada, hnone]
  · intro adapter ms hada
    have hstep : redactGo adapter 5 1 5 =
        ((redactGo adapter 5 2 4).1,
         max 200 ms :: (redactGo adapter 5 2 4).2.1,
         (redactGo adapter 5 2 4).2.2 + 1) := by
      conv_lhs => unfold redactGo
      simp [hada, _extract_retry_delay_ms]
    exact ⟨(redactGo adapter 5 2 4).2.1, by
      show (redactGo adapter 5 1 5).2.1 = _
      rw [hstep]⟩
  · intro case_id maxA events
    obtain ⟨ht1, ht2, ht3⟩ := cleanupGo_totals case_id maxA events
    exact ⟨ht1, rfl, (cleanupGo case_id maxA events).2.2.1, rfl, ht2, ht3⟩

/-- C8 witness: a 500-status error fails fast after exactly one call. -/
theorem C8_cleanup_executor_amended_witness :
    _redact_with_retry (fun _ => .err (some 500) none) 5 =
      (.error (some 500, none), [], 1) :=
  C8_cleanup_executor_amended.2.2.1 (fun _ => .err (some 500) none) 5
    (some 500) none (by norm_num) rfl rfl

/-- Claim C2: refuted. The record-number extractor is not stable across
calls on a text without an explicit registration pattern: the fallback
embeds the clock of the call (epoch milliseconds), so two calls on the
text hello at consecutive milliseconds disagree on the record number and
hence on the whole (record number, cleaned text) pair. -/
theorem C2_record_number_stability_counterexample :
    extract_patient_registration_codes "hello" = [] ∧
    (extract_and_strip_agency_record_number 1000 "hello").agency_record_number
      = "1000" ∧
    (extract_and_strip_agency_record_number 1001 "hello").agency_record_number
      = "1001" ∧
    extract_and_strip_agency_record_number 1000 "hello" ≠
      extract_and_strip_agency_record_number 1001 "hello" := by
  refine ⟨rfl, rfl, rfl, ?_⟩
  decide

/-- Claim C2 (amended): whenever the text contains an explicit
registration pattern, the extractor ignores the clock, so two calls on
the same text return the same (record number, cleaned text) pair; on a
text without one, the returned record number is the epoch-millisecond
reading of that call, which breaks stability. -/
theorem C2_record_number_stability_amended (text : String) (n1 n2 : Nat) :
    (extract_patient_registration_codes text ≠ [] →
      extract_and_strip_agency_record_number n1 text =
        extract_and_strip_agency_record_number n2 text) ∧
    (extract_patient_registration_codes text = [] →
      (extract_and_strip_agency_record_number n1 text).agency_record_number
        = Nat.repr n1) := by
  constructor
  · intro h
    cases hc : extract_patient_registration_codes text with
    | nil => exact absurd hc h
    | cons c cs =>
      simp only [extract_and_strip_agency_record_number, hc]
  · intro h
    simp only [extract_and_strip_agency_record_number, h]

/-- Witness for the amended C2 theorem: an explicit Codigo text is
clock-independent; the text hello has no pattern and returns the clock. -/
theorem C2_record_number_stability_amended_witness :
    (extract_patient_registration_codes "Codigo: 12345" ≠ [] ∧
      extract_and_strip_agency_record_number 1000 "Codigo: 12345" =
        extract_and_strip_agency_record_number 2000 "Codigo: 12345") ∧
    (extract_patient_registration_codes "hello" = [] ∧
      (extract_and_strip_agency_record_number 7 "hello").agency_record_number
        = Nat.repr 7) :=
  ⟨⟨by decide,
    (C2_record_number_stability_amended "Codigo: 12345" 1000 2000).1
      (by decide)⟩,
   ⟨by decide,
    (C2_record_number_stability_amended "hello" 7 8).2 (by decide)⟩⟩
